import Mathlib

/-
Verification of the mock-exam extraction server's core:
the OCR text-repair utility, the JSON repair chain, the OCR gateway
fallback policy, and the eight-stage post-processing pipeline.

The JavaScript source is shallowly embedded: strings are `String`/`List Char`,
JS numbers on the integer paths are `Int`, possibly-absent object fields are
`Option`, and a thrown `TypeError` (property access on `undefined`) is `none`.
Each regex-based text pass is embedded as a leftmost, non-overlapping scan
whose matcher reproduces the (deterministic) behaviour of the original
pattern; scanning resumes after each replacement, as `String.prototype.replace`
with a global regex does.  The ASCII fragment of `\s`, `\d`, `[a-zA-Z]` is
modelled; all inputs exercised here are ASCII apart from the dash code points.
-/

set_option maxHeartbeats 1000000

/-! ## Character classes and scanning helpers -/

def enDashChar : Char := Char.ofNat 0x2013

def emDashChar : Char := Char.ofNat 0x2014

def braceOpenChar : Char := Char.ofNat 123

def braceCloseChar : Char := Char.ofNat 125

def backtickChar : Char := Char.ofNat 96

def isWsChar (c : Char) : Bool :=
  c == ' ' || c == '\t' || c == '\n' || c == '\r' || c == '\x0b' || c == '\x0c'

def isDigitChar (c : Char) : Bool :=
  '0' ≤ c && c ≤ '9'

def isLowerChar (c : Char) : Bool :=
  'a' ≤ c && c ≤ 'z'

def isUpperChar (c : Char) : Bool :=
  'A' ≤ c && c ≤ 'Z'

def isLetterChar (c : Char) : Bool :=
  isLowerChar c || isUpperChar c

def isIdentChar (c : Char) : Bool :=
  isLetterChar c || isDigitChar c || c == '_'

def isDashChar (c : Char) : Bool :=
  c == '-' || c == enDashChar || c == emDashChar

/-- Split off the longest prefix of characters satisfying `p`. -/
def spanChars (p : Char → Bool) : List Char → List Char × List Char
  | [] => ([], [])
  | c :: cs =>
    if p c then
      let (a, b) := spanChars p cs
      (c :: a, b)
    else ([], c :: cs)

/-- Case-insensitive literal match; returns the rest on success. -/
def matchCI : List Char → List Char → Option (List Char)
  | [], cs => some cs
  | _ :: _, [] => none
  | l :: ls, c :: cs => if l.toLower == c.toLower then matchCI ls cs else none

/--
Leftmost non-overlapping replacement scan, the semantics of
`String.prototype.replace` with a global regex: the matcher is tried at each
position in order; on a match it returns the emitted replacement plus the
rest of the input after the match, and scanning resumes there.  Every
matcher used below consumes at least one character, so fuel `length + 1`
always suffices.
-/
def replaceScan (m : List Char → Option (List Char × List Char)) :
    Nat → List Char → List Char
  | 0, _ => []
  | _, [] => []
  | Nat.succ fuel, c :: cs =>
    match m (c :: cs) with
    | some (rep, rest) => rep ++ replaceScan m fuel rest
    | none => c :: replaceScan m fuel cs

def runPass (m : List Char → Option (List Char × List Char)) (cs : List Char) :
    List Char :=
  replaceScan m (cs.length + 1) cs

def trimWs (cs : List Char) : List Char :=
  ((cs.dropWhile isWsChar).reverse.dropWhile isWsChar).reverse

/-! ## cleanOCRText (ocrService.js lines 371-413)

Each matcher below embeds one regex of the source, in source order. -/

/-- Matcher for the boilerplate patterns with a trailing number:
`/Page\s*\d+/gi`, `/IELTS\s*\d+/gi`, `/Test\s*\d+/gi`. -/
def mLitNum (lit : List Char) (cs : List Char) : Option (List Char × List Char) :=
  match matchCI lit cs with
  | none => none
  | some r1 =>
    let (_, r2) := spanChars isWsChar r1
    let (ds, r3) := spanChars isDigitChar r2
    if ds.isEmpty then none else some ([], r3)

/-- Matcher for `/Cambridge\s*IELTS/gi`. -/
def mCambridge (cs : List Char) : Option (List Char × List Char) :=
  match matchCI ("cambridge".data) cs with
  | none => none
  | some r1 =>
    let (_, r2) := spanChars isWsChar r1
    match matchCI ("ielts".data) r2 with
    | none => none
    | some r3 => some ([], r3)

/-- Matcher for `/\|/g`. -/
def mPipe : List Char → Option (List Char × List Char)
  | '|' :: cs => some ([], cs)
  | _ => none

/-- Matcher for `/_+/g`. -/
def mUnderscores : List Char → Option (List Char × List Char)
  | '_' :: cs =>
    let (_, r) := spanChars (fun c => c == '_') cs
    some ([' '], r)
  | _ => none

/-- Matcher for the double-em-dash run regex (two or more em dashes). -/
def mEmDashes : List Char → Option (List Char × List Char)
  | c :: d :: cs =>
    if c == emDashChar && d == emDashChar then
      let (_, r) := spanChars (fun x => x == emDashChar) cs
      some ([' '], r)
    else none
  | _ => none

/-- Matcher for `/\s*[|]\s*/g` (a no-op after the pipe strip, kept faithfully). -/
def mWsPipeWs (cs : List Char) : Option (List Char × List Char) :=
  let (_, r1) := spanChars isWsChar cs
  match r1 with
  | '|' :: r2 =>
    let (_, r3) := spanChars isWsChar r2
    some ([' '], r3)
  | _ => none

/-- Matcher for `/(\d+)\s*\.\s*/g` replaced by `"$1. "`. -/
def mDigitsDot (cs : List Char) : Option (List Char × List Char) :=
  let (ds, r1) := spanChars isDigitChar cs
  if ds.isEmpty then none
  else
    let (_, r2) := spanChars isWsChar r1
    match r2 with
    | '.' :: r3 =>
      let (_, r4) := spanChars isWsChar r3
      some (ds ++ ['.', ' '], r4)
    | _ => none

/-- Matcher for `/([lI])\s*\.\s*/g` replaced by `"1. "`. -/
def mElDot : List Char → Option (List Char × List Char)
  | c :: cs =>
    if c == 'l' || c == 'I' then
      let (_, r1) := spanChars isWsChar cs
      match r1 with
      | '.' :: r2 =>
        let (_, r3) := spanChars isWsChar r2
        some (['1', '.', ' '], r3)
      | _ => none
    else none
  | [] => none

/-- Matcher for `/O\s*\.\s*/g` replaced by `"0. "`. -/
def mODot : List Char → Option (List Char × List Char)
  | 'O' :: cs =>
    let (_, r1) := spanChars isWsChar cs
    match r1 with
    | '.' :: r2 =>
      let (_, r3) := spanChars isWsChar r2
      some (['0', '.', ' '], r3)
    | _ => none
  | _ => none

/-- Matcher for `/([a-zA-Z])-\s*\n\s*([a-zA-Z])/g` replaced by `"$1$2"`:
a hyphen-broken word across a whitespace run containing a line break. -/
def mHyphenBreak : List Char → Option (List Char × List Char)
  | a :: '-' :: cs =>
    if isLetterChar a then
      let (ws, r1) := spanChars isWsChar cs
      if ws.contains '\n' then
        match r1 with
        | b :: r2 => if isLetterChar b then some ([a, b], r2) else none
        | [] => none
      else none
    else none
  | _ => none

/-- Matcher for `/([a-zA-Z])-([a-zA-Z])/g` replaced by `"$1$2"`. -/
def mHyphenJoin : List Char → Option (List Char × List Char)
  | a :: '-' :: b :: cs =>
    if isLetterChar a && isLetterChar b then some ([a, b], cs) else none
  | _ => none

/-- Matcher for `/\n(?=[a-z])/g` replaced by a space (lookahead not consumed). -/
def mNlBeforeLower : List Char → Option (List Char × List Char)
  | '\n' :: c :: cs =>
    if isLowerChar c then some ([' '], c :: cs) else none
  | _ => none

/-- Matcher for `/\n+/g` replaced by a space. -/
def mNlRun : List Char → Option (List Char × List Char)
  | '\n' :: cs =>
    let (_, r) := spanChars (fun c => c == '\n') cs
    some ([' '], r)
  | _ => none

/-- Matcher for `/\s+/g` replaced by a space. -/
def mWsRun : List Char → Option (List Char × List Char)
  | c :: cs =>
    if isWsChar c then
      let (_, r) := spanChars isWsChar cs
      some ([' '], r)
    else none
  | [] => none

/-- Matcher for `/([a-z])([A-Z])/g` replaced by `"$1 $2"`. -/
def mLowerUpper : List Char → Option (List Char × List Char)
  | a :: b :: cs =>
    if isLowerChar a && isUpperChar b then some ([a, ' ', b], cs) else none
  | _ => none

/-- Matcher for `/([0-9])([A-Z])/g` replaced by `"$1 $2"`. -/
def mDigitUpper : List Char → Option (List Char × List Char)
  | a :: b :: cs =>
    if isDigitChar a && isUpperChar b then some ([a, ' ', b], cs) else none
  | _ => none

/-- Matcher for `/([a-zA-Z])([0-9])/g` replaced by `"$1 $2"`. -/
def mLetterDigit : List Char → Option (List Char × List Char)
  | a :: b :: cs =>
    if isLetterChar a && isDigitChar b then some ([a, ' ', b], cs) else none
  | _ => none

/-- Matcher for the dash-normalization regex (hyphen, en dash, em dash with
optional surrounding whitespace) replaced by `" - "`. -/
def mDashNorm (cs : List Char) : Option (List Char × List Char) :=
  let (_, r1) := spanChars isWsChar cs
  match r1 with
  | d :: r2 =>
    if isDashChar d then
      let (_, r3) := spanChars isWsChar r2
      some ([' ', '-', ' '], r3)
    else none
  | [] => none

/-- Matcher for `/([.?!])\s*([A-Z])/g` replaced by `"$1 $2"`. -/
def mSentenceSpace : List Char → Option (List Char × List Char)
  | a :: cs =>
    if a == '.' || a == '?' || a == '!' then
      let (_, r1) := spanChars isWsChar cs
      match r1 with
      | b :: r2 => if isUpperChar b then some ([a, ' ', b], r2) else none
      | [] => none
    else none
  | [] => none

/-- Embedding of `OCRService.cleanOCRText` (ocrService.js 371-413): the full ordered
sequence of replacement passes followed by `trim`. -/
def cleanOCRText (s : String) : String :=
  let t1 := runPass (mLitNum ("page".data)) s.data
  let t2 := runPass (mLitNum ("ielts".data)) t1
  let t3 := runPass mCambridge t2
  let t4 := runPass (mLitNum ("test".data)) t3
  let t5 := runPass mPipe t4
  let t6 := runPass mUnderscores t5
  let t7 := runPass mEmDashes t6
  let t8 := runPass mWsPipeWs t7
  let t9 := runPass mDigitsDot t8
  let t10 := runPass mElDot t9
  let t11 := runPass mODot t10
  let t12 := runPass mHyphenBreak t11
  let t13 := runPass mHyphenJoin t12
  let t14 := runPass mNlBeforeLower t13
  let t15 := runPass mNlRun t14
  let t16 := runPass mWsRun t15
  let t17 := runPass mLowerUpper t16
  let t18 := runPass mDigitUpper t17
  let t19 := runPass mLetterDigit t18
  let t20 := runPass mDashNorm t19
  let t21 := runPass mSentenceSpace t20
  let t22 := runPass mWsRun t21
  String.mk (trimWs t22)

/-! ## JSON values and a strict parser (the `JSON.parse` collaborator)

Numbers are kept as their source lexeme: the claims under study concern the
repair pipeline's control flow, not floating-point arithmetic. -/

inductive Json where
  | null
  | bool (b : Bool)
  | num (lexeme : String)
  | str (s : String)
  | arrNil
  | arrCons (head : Json) (tail : Json)
  | objNil
  | objCons (key : String) (value : Json) (tail : Json)
deriving DecidableEq

/-- Build an array value from a list of elements. -/
def Json.arrOf (l : List Json) : Json := l.foldr Json.arrCons Json.arrNil

/-- Build an object value from a list of key-value members. -/
def Json.objOf (l : List (String × Json)) : Json :=
  l.foldr (fun kv t => Json.objCons kv.1 kv.2 t) Json.objNil

def jpSkipWs : List Char → List Char
  | [] => []
  | c :: cs =>
    if c == ' ' || c == '\t' || c == '\n' || c == '\r' then jpSkipWs cs else c :: cs

def hexVal (c : Char) : Option Nat :=
  let n := c.toNat
  if 48 ≤ n ∧ n ≤ 57 then some (n - 48)
  else if 97 ≤ n ∧ n ≤ 102 then some (n - 87)
  else if 65 ≤ n ∧ n ≤ 70 then some (n - 55)
  else none

/-- Body of a JSON string, after the opening quote; strict JSON escapes. -/
def parseStringAux (acc : List Char) : List Char → Option (List Char × List Char)
  | [] => none
  | c :: cs =>
    if c == '"' then some (acc, cs)
    else if c == '\\' then
      match cs with
      | [] => none
      | e :: cs2 =>
        if e == '"' then parseStringAux (acc ++ ['"']) cs2
        else if e == '\\' then parseStringAux (acc ++ ['\\']) cs2
        else if e == '/' then parseStringAux (acc ++ ['/']) cs2
        else if e == 'b' then parseStringAux (acc ++ ['\x08']) cs2
        else if e == 'f' then parseStringAux (acc ++ ['\x0c']) cs2
        else if e == 'n' then parseStringAux (acc ++ ['\n']) cs2
        else if e == 'r' then parseStringAux (acc ++ ['\r']) cs2
        else if e == 't' then parseStringAux (acc ++ ['\t']) cs2
        else if e == 'u' then
          match cs2 with
          | h1 :: h2 :: h3 :: h4 :: cs3 =>
            match hexVal h1, hexVal h2, hexVal h3, hexVal h4 with
            | some a, some b, some c3, some d4 =>
              parseStringAux (acc ++ [Char.ofNat (((a * 16 + b) * 16 + c3) * 16 + d4)]) cs3
            | _, _, _, _ => none
          | _ => none
        else none
    else if c.toNat < 0x20 then none
    else parseStringAux (acc ++ [c]) cs

def numExpTail (acc : List Char) (cs : List Char) : Option (List Char × List Char) :=
  match cs with
  | c :: rest =>
    if c == 'e' || c == 'E' then
      let (sgn, r1) :=
        match rest with
        | s :: r => if s == '+' || s == '-' then ([s], r) else ([], rest)
        | [] => ([], rest)
      let (ds, r2) := spanChars isDigitChar r1
      if ds.isEmpty then none else some (acc ++ c :: sgn ++ ds, r2)
    else some (acc, cs)
  | [] => some (acc, cs)

def numFracTail (acc : List Char) (cs : List Char) : Option (List Char × List Char) :=
  match cs with
  | '.' :: rest =>
    let (ds, r1) := spanChars isDigitChar rest
    if ds.isEmpty then none else numExpTail (acc ++ '.' :: ds) r1
  | _ => numExpTail acc cs

/-- Lexes a strict JSON number `-?(0|[1-9][0-9]*)(\.[0-9]+)?([eE][+-]?[0-9]+)?`. -/
def parseNumLex (cs : List Char) : Option (List Char × List Char) :=
  let (sgn, r1) :=
    match cs with
    | '-' :: r => (['-'], r)
    | _ => ([], cs)
  match r1 with
  | c :: r2 =>
    if c == '0' then numFracTail (sgn ++ [c]) r2
    else if isDigitChar c then
      let (ds, r3) := spanChars isDigitChar r2
      numFracTail (sgn ++ c :: ds) r3
    else none
  | [] => none

/-- Parser mode: a plain value, the rest of an array after `[`, or the rest of
an object after the opening brace (non-empty cases). -/
inductive JMode where
  | value
  | elems (acc : List Json)
  | objFields (acc : List (String × Json))

def parseCore : Nat → JMode → List Char → Option (Json × List Char)
  | 0, _, _ => none
  | Nat.succ fuel, JMode.value, cs =>
    match jpSkipWs cs with
    | [] => none
    | c :: rest =>
      if c == '"' then
        match parseStringAux [] rest with
        | some (s, r) => some (Json.str (String.mk s), r)
        | none => none
      else if c == braceOpenChar then
        match jpSkipWs rest with
        | [] => none
        | d :: r2 =>
          if d == braceCloseChar then some (Json.objOf [], r2)
          else parseCore fuel (JMode.objFields []) (d :: r2)
      else if c == '[' then
        match jpSkipWs rest with
        | [] => none
        | d :: r2 =>
          if d == ']' then some (Json.arrOf [], r2)
          else parseCore fuel (JMode.elems []) (d :: r2)
      else if c == 'n' then
        match rest with
        | 'u' :: 'l' :: 'l' :: r => some (Json.null, r)
        | _ => none
      else if c == 't' then
        match rest with
        | 'r' :: 'u' :: 'e' :: r => some (Json.bool true, r)
        | _ => none
      else if c == 'f' then
        match rest with
        | 'a' :: 'l' :: 's' :: 'e' :: r => some (Json.bool false, r)
        | _ => none
      else
        match parseNumLex (c :: rest) with
        | some (lex, r) => some (Json.num (String.mk lex), r)
        | none => none
  | Nat.succ fuel, JMode.elems acc, cs =>
    match parseCore fuel JMode.value cs with
    | none => none
    | some (v, r) =>
      match jpSkipWs r with
      | ',' :: r2 => parseCore fuel (JMode.elems (acc ++ [v])) r2
      | d :: r2 => if d == ']' then some (Json.arrOf (acc ++ [v]), r2) else none
      | [] => none
  | Nat.succ fuel, JMode.objFields acc, cs =>
    match jpSkipWs cs with
    | '"' :: r =>
      match parseStringAux [] r with
      | none => none
      | some (k, r2) =>
        match jpSkipWs r2 with
        | ':' :: r3 =>
          match parseCore fuel JMode.value r3 with
          | none => none
          | some (v, r4) =>
            match jpSkipWs r4 with
            | ',' :: r5 => parseCore fuel (JMode.objFields (acc ++ [(String.mk k, v)])) r5
            | d :: r5 =>
              if d == braceCloseChar then some (Json.objOf (acc ++ [(String.mk k, v)]), r5)
              else none
            | [] => none
        | _ => none
    | _ => none

/-- The `JSON.parse` collaborator: strict JSON, whole input consumed. -/
def jsonParse (s : String) : Option Json :=
  match parseCore (2 * s.length + 8) JMode.value s.data with
  | some (v, rest) => if (jpSkipWs rest).isEmpty then some v else none
  | none => none

/-! ## cleanJsonString (ocrService.js 260-292) -/

/-- Matcher for the fenced-code opener with a `json` hint (case-insensitive)
followed by optional whitespace. -/
def mFenceJson (cs : List Char) : Option (List Char × List Char) :=
  match cs with
  | a :: b :: c :: rest =>
    if a == backtickChar && b == backtickChar && c == backtickChar then
      match matchCI ("json".data) rest with
      | some r1 =>
        let (_, r2) := spanChars isWsChar r1
        some ([], r2)
      | none => none
    else none
  | _ => none

/-- Matcher for a bare triple-backtick fence followed by optional whitespace. -/
def mFence (cs : List Char) : Option (List Char × List Char) :=
  match cs with
  | a :: b :: c :: rest =>
    if a == backtickChar && b == backtickChar && c == backtickChar then
      let (_, r1) := spanChars isWsChar rest
      some ([], r1)
    else none
  | _ => none

/-- Matcher for an unquoted property name after `,` or the opening brace,
replaced by its quoted form (the separating whitespace of group 1 is kept,
the whitespace before the colon is dropped). -/
def mUnquotedKey (cs : List Char) : Option (List Char × List Char) :=
  match cs with
  | c :: rest =>
    if c == ',' || c == braceOpenChar then
      let (ws, r1) := spanChars isWsChar rest
      let (ident, r2) := spanChars isIdentChar r1
      if ident.isEmpty then none
      else
        let (_, r3) := spanChars isWsChar r2
        match r3 with
        | ':' :: r4 => some (c :: ws ++ '"' :: ident ++ ['"', ':'], r4)
        | _ => none
    else none
  | [] => none

/-- The start-anchored unquoted-key regex: with no multiline flag it can only
fire at the very beginning of the string, at most once. -/
def quoteLeadingKey (cs : List Char) : List Char :=
  let (ws, r1) := spanChars isWsChar cs
  let (ident, r2) := spanChars isIdentChar r1
  if ident.isEmpty then cs
  else
    let (_, r3) := spanChars isWsChar r2
    match r3 with
    | ':' :: r4 => ws ++ '"' :: ident ++ ['"', ':'] ++ r4
    | _ => cs

/-- Matcher for a trailing comma before `}` or `]`. -/
def mTrailingComma (cs : List Char) : Option (List Char × List Char) :=
  match cs with
  | ',' :: rest =>
    let (_, r1) := spanChars isWsChar rest
    match r1 with
    | d :: r2 => if d == braceCloseChar || d == ']' then some ([d], r2) else none
    | [] => none
  | _ => none

/-- Matcher for the escaped-quote regex; its replacement re-emits exactly the
matched text, so the pass is behaviourally the identity. -/
def mEscapedQuote : List Char → Option (List Char × List Char)
  | a :: b :: c :: cs =>
    if a != '\\' && b == '\\' && c == '"' then some ([a, b, c], cs) else none
  | _ => none

/-- Scan for the lazy quoted-content-then-line-break pattern: the first quote
followed directly by a CR/LF run, with no line break before it. -/
def quoteNlScan (acc : List Char) : List Char → Option (List Char × List Char)
  | [] => none
  | c :: cs =>
    if c == '"' then
      match cs with
      | d :: _ =>
        if d == '\n' || d == '\r' then
          let (_, r) := spanChars (fun x => x == '\n' || x == '\r') cs
          some (acc, r)
        else quoteNlScan (acc ++ [c]) cs
      | [] => none
    else if c == '\n' || c == '\r' then none
    else quoteNlScan (acc ++ [c]) cs

/-- Matcher for the quoted-value line-break regex: the content (which `.`
guarantees holds no line break, so the callback's inner escape is a no-op) is
kept and the trailing CR/LF run after the closing quote is deleted. -/
def mQuoteNewline : List Char → Option (List Char × List Char)
  | '"' :: cs =>
    match quoteNlScan [] cs with
    | some (content, r) => some ('"' :: content ++ ['"'], r)
    | none => none
  | _ => none

/-- The control-character strip `[\x00-\x08\x0B\x0C\x0E-\x1F]`. -/
def stripCtl (cs : List Char) : List Char :=
  cs.filter fun c =>
    !(c.toNat ≤ 0x08 || c.toNat == 0x0b || c.toNat == 0x0c ||
      (0x0e ≤ c.toNat && c.toNat ≤ 0x1f))

/-- Embedding of `OCRService.cleanJsonString` (ocrService.js 260-292): the ordered cleanup
passes followed by `trim`.  (The guard that throws on a non-string argument is
outside this embedding's typed domain.) -/
def cleanJsonString (s : String) : String :=
  let t1 := runPass mFenceJson s.data
  let t2 := runPass mFence t1
  let t3 := runPass mUnquotedKey t2
  let t4 := quoteLeadingKey t3
  let t5 := runPass mTrailingComma t4
  let t6 := runPass mEscapedQuote t5
  let t7 := runPass mQuoteNewline t6
  let t8 := stripCtl t7
  String.mk (trimWs t8)

/-! ## parseJsonSafely (ocrService.js 298-348) -/

def idxOfFirstChar (c : Char) : List Char → Option Nat
  | [] => none
  | d :: ds => if d == c then some 0 else (idxOfFirstChar c ds).map (· + 1)

/-- The source's embedded-JSON extraction `rawJsonString.match(/\{.*\}/s)`:
with the dot-all flag and a greedy star this is the span from the first
opening brace through the last closing brace (when the latter comes after
the former). -/
def extractJsonSpan (s : String) : Option String :=
  let cs := s.data
  match idxOfFirstChar braceOpenChar cs, idxOfFirstChar braceCloseChar cs.reverse with
  | some i, some rj =>
    let j := cs.length - 1 - rj
    if i < j then some (String.mk ((cs.drop i).take (j - i + 1))) else none
  | _, _ => none

def dropToBrace : List Char → Option (List Char)
  | [] => none
  | c :: cs => if c == braceOpenChar then some (c :: cs) else dropToBrace cs

def balancedScan (depth : Nat) (acc : List Char) : List Char → Option (List Char)
  | [] => none
  | c :: cs =>
    if c == braceOpenChar then balancedScan (depth + 1) (acc ++ [c]) cs
    else if c == braceCloseChar then
      if depth == 1 then some (acc ++ [c])
      else balancedScan (depth - 1) (acc ++ [c]) cs
    else balancedScan depth (acc ++ [c]) cs

/-- Modelled from the spec: "extraction of the first balanced `{...}` span
from the text" (spec 4.1, stage (d)); the depth-counting reading of that
sentence, used to compare the claim's wording against the source's greedy
regex extraction. -/
def firstBalancedSpan (s : String) : Option String :=
  match dropToBrace s.data with
  | some (c :: cs) => (balancedScan 1 [c] cs).map String.mk
  | _ => none

def parseFailMsg (context raw : String) : String :=
  "Failed to parse " ++ context ++ " JSON after all repair attempts. Raw response: " ++
    (if 200 < raw.length then String.mk (raw.data.take 200) ++ "..." else raw)

/-- Embedding of `OCRService.parseJsonSafely` (ocrService.js 298-348).  The optional
`repair` argument abstracts the third-party `jsonrepair` dependency (absent
when the package is not installed, exactly as the source guards with
`if (jsonrepair)`); it returns the repaired string, `none` standing for a
thrown repair error. -/
def parseJsonSafely (repair : Option (String → Option String)) (context : String)
    (raw : String) : Except String Json :=
  if raw == "" then Except.error ("Empty " ++ context ++ " response received")
  else
    match jsonParse raw with
    | some v => Except.ok v
    | none =>
      match jsonParse (cleanJsonString raw) with
      | some v => Except.ok v
      | none =>
        match
          (match repair with
           | some rep => (rep raw).bind jsonParse
           | none => none) with
        | some v => Except.ok v
        | none =>
          match (extractJsonSpan raw).bind (fun sub => jsonParse (cleanJsonString sub)) with
          | some v => Except.ok v
          | none => Except.error (parseFailMsg context raw)

/-- Modelled from the spec: the variant of `parseJsonSafely` whose final stage
extracts the first *balanced* brace span, as claim C3 words stage (d). -/
def parseJsonSafelySpec (repair : Option (String → Option String)) (context : String)
    (raw : String) : Except String Json :=
  if raw == "" then Except.error ("Empty " ++ context ++ " response received")
  else
    match jsonParse raw with
    | some v => Except.ok v
    | none =>
      match jsonParse (cleanJsonString raw) with
      | some v => Except.ok v
      | none =>
        match
          (match repair with
           | some rep => (rep raw).bind jsonParse
           | none => none) with
        | some v => Except.ok v
        | none =>
          match (firstBalancedSpan raw).bind (fun sub => jsonParse (cleanJsonString sub)) with
          | some v => Except.ok v
          | none => Except.error (parseFailMsg context raw)

/-- Stage (a): direct parse. -/
def stageDirect (raw : String) : Option Json := jsonParse raw

/-- Stage (b): structural cleanup, then parse. -/
def stageCleaned (raw : String) : Option Json := jsonParse (cleanJsonString raw)

/-- Stage (c): the general-purpose repair pass, then parse. -/
def stageRepair (repair : Option (String → Option String)) (raw : String) : Option Json :=
  match repair with
  | some rep => (rep raw).bind jsonParse
  | none => none

/-- Stage (d): greedy brace-span extraction, cleanup, then parse. -/
def stageExtract (raw : String) : Option Json :=
  (extractJsonSpan raw).bind fun sub => jsonParse (cleanJsonString sub)

/-! ## The OCR gateway (ocrService.js 46-219)

`extractText` is embedded with its network effects supplied by an
environment of oracles: the outcome of each successive health check and of
each docTR / Tesseract extraction call.  The returned event trace records,
in order, every health check, every backend extraction call, and every
`setTimeout` delay the function performs, so that the retry-budget claims
can be stated about it. -/

deriving instance DecidableEq for Except

structure OCRResult where
  text : String
  confidence : Int
  service : String
deriving DecidableEq

inductive OCREvent where
  | healthCheck (ok : Bool)
  | doctrExtract (ok : Bool)
  | tesseractExtract (ok : Bool)
  | delayMs (ms : Nat)
deriving DecidableEq

structure OCRConfig where
  primaryService : String
  fallbackService : String
  maxRetries : Nat

structure OCREnv where
  healthFn : Nat → Bool
  doctrFn : Nat → Except String (String × Int)
  tessFn : Nat → Except String (String × Int)

structure OCRCounters where
  h : Nat
  d : Nat
  t : Nat
deriving DecidableEq

/-- One attempt on a named backend, mirroring the body of the source's
`try` block: the docTR path health-checks first and throws the given
unhealthy message without ever calling the extraction endpoint; the
Tesseract path calls the local engine directly.  Results are tagged with
the backend's service name exactly as `extractTextWithDocTR` /
`extractTextWithTesseract` tag them. -/
def attemptService (svc : String) (unhealthyMsg : String) (env : OCREnv)
    (st : OCRCounters) : Except String OCRResult × OCRCounters × List OCREvent :=
  if svc == "doctr" then
    let ok := env.healthFn st.h
    let st1 : OCRCounters := ⟨st.h + 1, st.d, st.t⟩
    if ok then
      match env.doctrFn st1.d with
      | Except.ok r =>
        (Except.ok ⟨r.1, r.2, "docTR"⟩, ⟨st1.h, st1.d + 1, st1.t⟩,
          [OCREvent.healthCheck true, OCREvent.doctrExtract true])
      | Except.error e =>
        (Except.error e, ⟨st1.h, st1.d + 1, st1.t⟩,
          [OCREvent.healthCheck true, OCREvent.doctrExtract false])
    else (Except.error unhealthyMsg, st1, [OCREvent.healthCheck false])
  else
    match env.tessFn st.t with
    | Except.ok r =>
      (Except.ok ⟨r.1, r.2, "Tesseract"⟩, ⟨st.h, st.d, st.t + 1⟩,
        [OCREvent.tesseractExtract true])
    | Except.error e =>
      (Except.error e, ⟨st.h, st.d, st.t + 1⟩, [OCREvent.tesseractExtract false])

/-- The source's `while (attempts < this.maxRetries)` loop over the primary
backend, with the fixed 1000 ms delay between attempts (`attempts <
maxRetries` after the failure).  Returns the successful result if any,
the final counters, the trace, and `lastError`. -/
def primaryLoop (primarySvc : String) (env : OCREnv) :
    Nat → OCRCounters → Option String →
      Option OCRResult × OCRCounters × List OCREvent × Option String
  | 0, st, le => (none, st, [], le)
  | Nat.succ rem, st, le =>
    match attemptService primarySvc "docTR service is unhealthy" env st with
    | (Except.ok r, st1, ev) => (some r, st1, ev, le)
    | (Except.error e, st1, ev) =>
      if rem == 0 then (none, st1, ev, some e)
      else
        match primaryLoop primarySvc env rem st1 (some e) with
        | (res, st2, ev2, le2) => (res, st2, ev ++ OCREvent.delayMs 1000 :: ev2, le2)

/-- Message of the JS `lastError` (`null` only when `maxRetries = 0`, where
the source would itself fault reading `.message` of `null`). -/
def lastErrMessage : Option String → String
  | some e => e
  | none => "TypeError: lastError is null"

/-- Embedding of `OCRService.extractText` (ocrService.js 168-219): primary attempts with
retries, then a single fallback attempt when a distinct fallback backend is
configured. -/
def extractText (cfg : OCRConfig) (env : OCREnv) :
    Except String OCRResult × List OCREvent :=
  match primaryLoop cfg.primaryService env cfg.maxRetries ⟨0, 0, 0⟩ none with
  | (some r, _, ev, _) => (Except.ok r, ev)
  | (none, st, ev, lastErr) =>
    if cfg.fallbackService != cfg.primaryService then
      match attemptService cfg.fallbackService "docTR fallback service is also unhealthy" env st with
      | (Except.ok r, _, fev) => (Except.ok r, ev ++ fev)
      | (Except.error _, _, fev) =>
        (Except.error ("Both primary (" ++ cfg.primaryService ++ ") and fallback (" ++
            cfg.fallbackService ++ ") OCR services failed. Last error: " ++
            lastErrMessage lastErr), ev ++ fev)
    else (Except.error (lastErrMessage lastErr), ev)

def isDoctrCall : OCREvent → Bool
  | OCREvent.doctrExtract _ => true
  | _ => false

def isHealthCheckEvent : OCREvent → Bool
  | OCREvent.healthCheck _ => true
  | _ => false

def isDelayEvent : OCREvent → Bool
  | OCREvent.delayMs _ => true
  | _ => false

/-- The trace an all-unhealthy primary produces over `r + 1` attempts. -/
def unhealthyTrace : Nat → List OCREvent
  | 0 => [OCREvent.healthCheck false]
  | Nat.succ r => OCREvent.healthCheck false :: OCREvent.delayMs 1000 :: unhealthyTrace r

/-- Environment for the concrete unhealthy-docTR scenario: the health check
always reports unhealthy, Tesseract succeeds. -/
def envC4 : OCREnv :=
  ⟨fun _ => false, fun _ => Except.error "docTR down", fun _ => Except.ok ("scanned text", 90)⟩

def cfgC4 : OCRConfig := ⟨"doctr", "tesseract", 2⟩

/-! ## The exam-document data model (post-processing pipeline)

JS objects are embedded as structures whose possibly-absent fields are
`Option`; JS truthiness on the relevant types is: an absent field, the empty
string, and the number 0 are falsy; objects and arrays (even empty ones) are
truthy.  A thrown `TypeError` from accessing a property of `undefined` is
modelled as `none` in a stage's `Option` result. -/

structure Answer where
  correct : String
  accepted : List String
deriving DecidableEq

structure Question where
  questionId : Option String := none
  number : Option Int := none
  numberRange : Option String := none
  type : Option String := none
  inputType : Option String := none
  answerConstraints : Option String := none
  isInteractive : Option Bool := none
  answer : Option Answer := none
  draggableVariants : Option (List String) := none
  base64 : Option String := none
  url : Option String := none
  headline : Option String := none
  text : Option String := none
  questionText : Option String := none
  instructions : Option String := none
  textList : Option (List String) := none
  options : Option (List String) := none
deriving DecidableEq

structure PartJS where
  part : Option Int := none
  instructions : Option String := none
  questionsRange : Option String := none
  questions : Option (List Question) := none
deriving DecidableEq

structure DocumentJS where
  test : Option String := none
  sectionName : Option String := none
  parts : Option (List PartJS) := none
deriving DecidableEq

structure UploadedImage where
  url : String
  filename : String
  isMap : Bool
deriving DecidableEq

def strTruthy : Option String → Bool
  | none => false
  | some s => s != ""

def intTruthy : Option Int → Bool
  | none => false
  | some n => n != 0

/-- Evaluation of `a || dflt` for a string-valued JS expression. -/
def jsOrStr (o : Option String) (dflt : String) : String :=
  match o with
  | some s => if s == "" then dflt else s
  | none => dflt

/-- Evaluation of `a || dflt` for a number-valued JS expression. -/
def jsOrInt (o : Option Int) (dflt : Int) : Int :=
  match o with
  | some n => if n == 0 then dflt else n
  | none => dflt

/-- Template-literal interpolation of a possibly-undefined string. -/
def jsTemplateStr : Option String → String
  | some s => s
  | none => "undefined"

/-- Template-literal interpolation of a possibly-undefined number. -/
def jsTemplateInt : Option Int → String
  | some n => toString n
  | none => "undefined"

def mapIdxAux (f : Nat → α → β) : Nat → List α → List β
  | _, [] => []
  | i, a :: as => f i a :: mapIdxAux f (i + 1) as

/-- Indexed traversal in the `Option` monad; `none` models an iteration body
that threw. -/
def optionMapIdx (f : Nat → α → Option β) : Nat → List α → Option (List β)
  | _, [] => some []
  | i, a :: as =>
    match f i a, optionMapIdx f (i + 1) as with
    | some b, some bs => some (b :: bs)
    | _, _ => none

def pAt (d : DocumentJS) (k : Nat) : Option PartJS :=
  (d.parts.getD [])[k]?

def qAt (d : DocumentJS) (k j : Nat) : Option Question :=
  (pAt d k).bind fun part => (part.questions.getD [])[j]?

def emptyDoc : DocumentJS := {}

def collectQuestions (ps : List PartJS) : List Question :=
  (ps.map fun p => p.questions.getD []).flatten

/-! ## Stage 1: mergeDuplicateParts (server 76-96)

The JS `Map` keyed on `part.part` is insertion-ordered; a first encounter
stores `{...part, questions: part.questions || []}`, later encounters with
the same key concatenate questions onto the stored entry.  The final
`.sort((a, b) => a.part - b.part)` is embedded as an insertion sort on the
part numbers (with distinct numeric keys, which the map guarantees on the
numeric-part domain, any comparison sort agrees with the JS sort). -/

def mergeInto (acc : List PartJS) (p : PartJS) : List PartJS :=
  if acc.any (fun e => e.part == p.part) then
    acc.map fun e =>
      if e.part == p.part then
        { e with questions := some (e.questions.getD [] ++ p.questions.getD []) }
      else e
  else acc ++ [{ p with questions := some (p.questions.getD []) }]

def partLe (a b : PartJS) : Bool :=
  a.part.getD 0 ≤ b.part.getD 0

def insertPart (p : PartJS) : List PartJS → List PartJS
  | [] => [p]
  | q :: qs => if partLe p q then p :: q :: qs else q :: insertPart p qs

def sortParts : List PartJS → List PartJS
  | [] => []
  | p :: ps => insertPart p (sortParts ps)

def mergeDuplicateParts (parts : List PartJS) : List PartJS :=
  sortParts (parts.foldl mergeInto [])

/-- The per-entry postcondition of the merge fold: the entry is the first
input part with its key, carrying the concatenated questions of every input
part with that key. -/
def MergedEntryOK (processed : List PartJS) (e : PartJS) : Prop :=
  ∃ f rest, (processed.filter fun p => p.part == e.part) = f :: rest ∧
    e = { f with
      questions := some (collectQuestions (processed.filter fun p => p.part == e.part)) }

/-- Invariant of the merge fold over the insertion-ordered accumulator. -/
def MergeInv (processed acc : List PartJS) : Prop :=
  acc.Pairwise (fun a b => a.part ≠ b.part) ∧
  (∀ e ∈ acc, MergedEntryOK processed e) ∧
  (∀ p ∈ processed, ∃ e ∈ acc, e.part = p.part)

/-! ## Stage 2: validateAndFixStructure (server 301-352) with its helpers -/

def leadsWith : List Char → List Char → Bool
  | [], _ => true
  | _ :: _, [] => false
  | a :: as, b :: bs => a == b && leadsWith as bs

def hasSubAux (needle : List Char) : List Char → Bool
  | [] => leadsWith needle []
  | c :: cs => leadsWith needle (c :: cs) || hasSubAux needle cs

/-- Embedding of `hay.includes(needle)`. -/
def hasSubstring (needle hay : String) : Bool :=
  hasSubAux needle.data hay.data

def toLowerStr (s : String) : String :=
  String.mk (s.data.map Char.toLower)

/-- Embedding of `autoDetectQuestionType` (server 354-386). -/
def autoDetectQuestionType (q : Question) : String :=
  let text := toLowerStr (jsOrStr q.text (jsOrStr q.questionText ""))
  let instr := toLowerStr (jsOrStr q.instructions "")
  if hasSubstring "____" text || hasSubstring "..." text then
    if hasSubstring "map" instr || hasSubstring "diagram" instr ||
        hasSubstring "label" instr then "map-labelling"
    else if hasSubstring "form" instr || hasSubstring "notes" instr ||
        hasSubstring "table" instr then "form-fill"
    else "sentence-completion"
  else if q.textList.isSome || q.options.isSome then
    if hasSubstring "choose two" instr || hasSubstring "choose three" instr then
      "multi-select"
    else "multiple-choice"
  else if q.draggableVariants.isSome || hasSubstring "match" instr then "matching"
  else if hasSubstring "short answer" instr || hasSubstring "no more than" instr then
    "short-answer"
  else "form-fill"

/-- Embedding of `getInputTypeForQuestionType` (server 388-399). -/
def getInputTypeForQuestionType (t : String) : String :=
  if t == "form-fill" then "text"
  else if t == "multiple-choice" then "radio"
  else if t == "multi-select" then "checkbox"
  else if t == "matching" then "drag"
  else if t == "map-labelling" then "text"
  else if t == "short-answer" then "text"
  else if t == "sentence-completion" then "text"
  else "text"

/-- Embedding of `getDefaultAnswerConstraints` (server 401-412). -/
def getDefaultAnswerConstraints (t : String) : String :=
  if t == "form-fill" then "ONE WORD AND/OR A NUMBER"
  else if t == "multiple-choice" then "CHOOSE THE CORRECT LETTER A, B OR C"
  else if t == "multi-select" then "CHOOSE TWO LETTERS A-E"
  else if t == "matching" then "CHOOSE FROM THE BOX A-H"
  else if t == "map-labelling" then "LABEL FROM MAP A-H"
  else if t == "short-answer" then "NO MORE THAN THREE WORDS"
  else if t == "sentence-completion" then "ONE WORD ONLY"
  else "ONE WORD AND/OR A NUMBER"

/-- The per-question defaulting of stage 2 (server 325-347); the `type` is
resolved first and the `inputType`/`answerConstraints` defaults read the
resolved value, exactly as the mutations do in source order. -/
def fixQuestion (testVal : String) (pnum : Int) (j : Nat) (q : Question) : Question :=
  let ty := jsOrStr q.type (autoDetectQuestionType q)
  { q with
    questionId := some (jsOrStr q.questionId
      ("listening-" ++ testVal ++ "-" ++ toString pnum ++ "-" ++ toString (j + 1))),
    number := some (jsOrInt q.number ((pnum - 1) * 10 + ((j : Int) + 1))),
    type := some ty,
    inputType := some (jsOrStr q.inputType (getInputTypeForQuestionType ty)),
    answerConstraints := some (jsOrStr q.answerConstraints (getDefaultAnswerConstraints ty)),
    isInteractive := some (q.isInteractive.getD true),
    answer := some (q.answer.getD ⟨"", []⟩) }

/-- The per-part defaulting of stage 2 (server 312-323). -/
def fixPart (testVal : String) (k : Nat) (p : PartJS) : PartJS :=
  let pnum := jsOrInt p.part ((k : Int) + 1)
  { p with
    part := some pnum,
    instructions := some (jsOrStr p.instructions ("Part " ++ toString pnum ++ " instructions")),
    questionsRange := some (jsOrStr p.questionsRange
      (toString ((pnum - 1) * 10 + 1) ++ "-" ++ toString (pnum * 10))),
    questions := some (mapIdxAux (fixQuestion testVal pnum) 0 (p.questions.getD [])) }

/-- Embedding of `validateAndFixStructure` (server 301-352); total by construction. -/
def validateAndFixStructure (d : DocumentJS) : DocumentJS :=
  let t := jsOrStr d.test "1"
  { test := some t,
    sectionName := some (jsOrStr d.sectionName "Listening"),
    parts := some (mapIdxAux (fixPart t) 0 (d.parts.getD [])) }

/-! ## Stage 3: injectImageObjects (server 184-219) -/

/-- The synthetic image pseudo-question inserted before the first
map-labelling question (server 203-209). -/
def imageQuestion (test : Option String) (pnum : Option Int) (img : UploadedImage) : Question :=
  { type := some "image",
    questionId := some ("listening-" ++ jsTemplateStr test ++ "-" ++ jsTemplateInt pnum ++ "-map"),
    url := some img.url,
    headline := some "Map" }

def injectPart (test : Option String) (imgs : List UploadedImage) (part : PartJS) : PartJS :=
  let questions := part.questions.getD []
  let newQs := questions.foldl
    (fun acc q =>
      if q.type == some "map-labelling" && !(acc.any fun qq => qq.type == some "image") then
        match imgs.find? (fun img => img.isMap) with
        | some mapImage => acc ++ [imageQuestion test part.part mapImage, q]
        | none => acc ++ [q]
      else acc ++ [q]) []
  { part with questions := some newQs }

/-- Embedding of `injectImageObjects`: returns the structure untouched when no images were
uploaded (before ever reading `parts`); otherwise walks `parts`, faulting on a
document without a parts array. -/
def injectImageObjects (d : DocumentJS) (imgs : List UploadedImage) : Option DocumentJS :=
  if imgs.isEmpty then some d
  else
    match d.parts with
    | none => none
    | some ps => some { d with parts := some (ps.map (injectPart d.test imgs)) }

/-! ## Stage 4: processBase64Images (server 222-255)

The filesystem write and `Date.now()` are abstracted as the `fsOk` / `now`
parameters; a failing write is caught in source and leaves the question
unchanged, so the stage faults only on a missing `parts` or `questions`
array. -/

def processQ (fsOk : Bool) (now : Nat) (q : Question) : Question :=
  if q.type == some "image" && strTruthy q.base64 then
    if fsOk then
      let filename := jsOrStr q.questionId ("image-" ++ toString now) ++ ".png"
      { q with url := some ("http://localhost:3001/uploads/" ++ filename), base64 := none }
    else q
  else q

def processBase64Images (fsOk : Bool) (now : Nat) (d : DocumentJS) : Option DocumentJS :=
  match d.parts with
  | none => none
  | some ps =>
    match optionMapIdx
        (fun _ part =>
          match part.questions with
          | none => none
          | some qs => some { part with questions := some (qs.map (processQ fsOk now)) })
        0 ps with
    | none => none
    | some ps2 => some { d with parts := some ps2 }

/-! ## Stage 5: linkMatchingQuestions (server 258-280) -/

/-- The draggable variants the stage resolves for a part: the *first* divider
question carrying a `draggableVariants` field (an empty array is truthy and
is found), else the empty list. -/
def partDV (part : PartJS) : List String :=
  match (part.questions.getD []).find?
      (fun q => q.type == some "divider" && q.draggableVariants.isSome) with
  | some divider => divider.draggableVariants.getD []
  | none => []

def linkPart (part : PartJS) : PartJS :=
  let dv := partDV part
  { part with
    questions := part.questions.map (List.map fun q =>
      if q.type == some "matching" && !dv.isEmpty then
        { q with draggableVariants := some dv }
      else q) }

def linkMatchingQuestions (d : DocumentJS) : Option DocumentJS :=
  match d.parts with
  | none => none
  | some ps => some { d with parts := some (ps.map linkPart) }

/-! ## Stage 6: standardizeQuestionIds (server 283-298) -/

/-- The regex replacing en/em dashes by a plain hyphen. -/
def replaceDashesStr (s : String) : String :=
  String.mk (s.data.map fun c => if c == enDashChar || c == emDashChar then '-' else c)

def stdQ (q : Question) : Question :=
  let q1 :=
    if strTruthy q.questionId then { q with questionId := q.questionId.map replaceDashesStr }
    else q
  if strTruthy q1.numberRange then { q1 with numberRange := q1.numberRange.map replaceDashesStr }
  else q1

def standardizeQuestionIds (d : DocumentJS) : Option DocumentJS :=
  match d.parts with
  | none => none
  | some ps =>
    match optionMapIdx
        (fun _ part =>
          match part.questions with
          | none => none
          | some qs => some { part with questions := some (qs.map stdQ) })
        0 ps with
    | none => none
    | some ps2 => some { d with parts := some ps2 }

/-! ## Stage 7: enforceQuestionNumbering (server 414-433) -/

/-- The per-question rewrite: every question whose type is neither `divider`
nor `image` gets `number := partIndex * 10 + questionIndex + 1`, and a truthy
`questionId` is rewritten to the hard-coded `listening-...` pattern. -/
def enforceQ (test : Option String) (pnum : Option Int) (partIndex qIndex : Nat)
    (q : Question) : Question :=
  if q.type != some "divider" && q.type != some "image" then
    let expected : Int := (partIndex : Int) * 10 + (qIndex : Int) + 1
    { q with
      number := some expected,
      questionId :=
        if strTruthy q.questionId then
          some ("listening-" ++ jsTemplateStr test ++ "-" ++ jsTemplateInt pnum ++ "-" ++
            toString expected)
        else q.questionId }
  else q

def enforcePart (test : Option String) (partIndex : Nat) (part : PartJS) : Option PartJS :=
  match part.questions with
  | none => none
  | some qs =>
    some { part with questions := some (mapIdxAux (enforceQ test part.part partIndex) 0 qs) }

def enforceQuestionNumbering (d : DocumentJS) : Option DocumentJS :=
  match d.parts with
  | none => none
  | some ps =>
    match optionMapIdx (enforcePart d.test) 0 ps with
    | none => none
    | some ps2 => some { d with parts := some ps2 }

/-! ## Stage 8: validateRequiredFields (server 435-488) -/

def questionErrors (pIdx qIdx : Nat) (q : Question) : List String :=
  if q.type == some "divider" || q.type == some "image" then []
  else
    (if strTruthy q.questionId then []
     else ["Part " ++ toString pIdx ++ ", Question " ++ toString qIdx ++ ": Missing questionId"]) ++
    (if intTruthy q.number then []
     else ["Part " ++ toString pIdx ++ ", Question " ++ toString qIdx ++ ": Missing number"]) ++
    (if strTruthy q.type then []
     else ["Part " ++ toString pIdx ++ ", Question " ++ toString qIdx ++ ": Missing type"]) ++
    (if strTruthy q.inputType then []
     else ["Part " ++ toString pIdx ++ ", Question " ++ toString qIdx ++ ": Missing inputType"]) ++
    (if q.isInteractive.isSome then []
     else ["Part " ++ toString pIdx ++ ", Question " ++ toString qIdx ++ ": Missing isInteractive"]) ++
    (if q.answer.isSome then []
     else ["Part " ++ toString pIdx ++ ", Question " ++ toString qIdx ++ ": Missing answer object"])

/-- Per-part error collection; the body pushes the part-level errors and then
iterates `part.questions`, faulting (`none`) when that array is absent, just
after having pushed its "Missing or invalid questions array" message. -/
def partErrors (pIdx : Nat) (part : PartJS) : Option (List String) :=
  let base :=
    (if intTruthy part.part then [] else ["Part " ++ toString pIdx ++ ": Missing part number"]) ++
    (if strTruthy part.instructions then []
     else ["Part " ++ toString pIdx ++ ": Missing instructions"]) ++
    (if strTruthy part.questionsRange then []
     else ["Part " ++ toString pIdx ++ ": Missing questionsRange"]) ++
    (match part.questions with
     | none => ["Part " ++ toString pIdx ++ ": Missing or invalid questions array"]
     | some _ => [])
  match part.questions with
  | none => none
  | some qs => some (base ++ (mapIdxAux (fun qIdx q => questionErrors pIdx qIdx q) 0 qs).flatten)

def validateRequiredFields (d : DocumentJS) : Option (Bool × List String) :=
  let mainErrs :=
    (if strTruthy d.test then [] else ["Missing test number"]) ++
    (if strTruthy d.sectionName then [] else ["Missing section name"]) ++
    (match d.parts with
     | none => ["Missing or invalid parts array"]
     | some _ => [])
  match d.parts with
  | none => none
  | some ps =>
    match optionMapIdx partErrors 0 ps with
    | none => none
    | some errLists =>
      let errors := mainErrs ++ errLists.flatten
      some (errors.isEmpty, errors)

/-! ## Concrete documents used by the witnesses and counterexamples -/

/-- Stage-7 exercise: part number 3, a divider, and two numbered questions
carrying wrong numbers. -/
def exDocC1 : DocumentJS :=
  { test := some "1", sectionName := some "Listening",
    parts := some [
      { part := some 3, instructions := some "i", questionsRange := some "21-30",
        questions := some [
          { type := some "divider" },
          { type := some "form-fill", number := some 99, questionId := some "listening-1-3-99" },
          { type := some "image" },
          { type := some "short-answer", number := some 7 }] }] }

def exDocC1out : DocumentJS := (enforceQuestionNumbering exDocC1).getD emptyDoc

/-- A Reading document whose only question is missing its `questionId`. -/
def exDocReading : DocumentJS :=
  { test := some "1", sectionName := some "Reading",
    parts := some [
      { part := some 1, instructions := some "i", questionsRange := some "1-10",
        questions := some [{ type := some "form-fill" }] }] }

/-- A document missing its `parts` array entirely. -/
def docNoParts : DocumentJS := { test := some "1", sectionName := some "Listening" }

/-- A well-formed minimal document (parts and questions arrays present). -/
def docC7 : DocumentJS :=
  { test := some "1", sectionName := some "Listening",
    parts := some [
      { part := some 1, instructions := some "i", questionsRange := some "1-10",
        questions := some [] }] }

/-- Stage-2 exercise: everything absent. -/
def exDocC8 : DocumentJS :=
  { parts := some [{ questions := some [{}] }] }

/-- A part whose *first* divider carries an empty `draggableVariants` array
while a later divider carries a non-empty one. -/
def docC9 : DocumentJS :=
  { test := some "1", sectionName := some "Listening",
    parts := some [
      { part := some 1, instructions := some "i", questionsRange := some "1-10",
        questions := some [
          { type := some "divider", draggableVariants := some [] },
          { type := some "divider", draggableVariants := some ["X"] },
          { type := some "matching" }] }] }

def partC9w : PartJS :=
  { part := some 1, instructions := some "i", questionsRange := some "1-10",
    questions := some [
      { type := some "divider", draggableVariants := some ["X", "Y"] },
      { type := some "matching" },
      { type := some "matching" },
      { type := some "form-fill" }] }

def docC9w : DocumentJS :=
  { test := some "1", sectionName := some "Listening", parts := some [partC9w] }

def qA : Question := { questionId := some "A" }

def qB : Question := { questionId := some "B" }

def qC : Question := { questionId := some "C" }

/-- The merge example of the spec: two parts both numbered 2. -/
def psC5 : List PartJS :=
  [{ part := some 2, instructions := some "first", questionsRange := some "11-20",
     questions := some [qA, qB] },
   { part := some 2, instructions := some "second", questionsRange := some "dup",
     questions := some [qC] }]

def mergedC5 : PartJS :=
  { part := some 2, instructions := some "first", questionsRange := some "11-20",
    questions := some [qA, qB, qC] }

def jsonCexInput : String := "\x7b\"a\":1\x7d \x7b\"b\":2\x7d"

/-! ## Helper lemmas -/

theorem mapIdxAux_getElem? (f : Nat → α → β) (l : List α) :
    ∀ i k : Nat, (mapIdxAux f i l)[k]? = (l[k]?).map (f (i + k)) := by
  induction l with
  | nil => intro i k; simp [mapIdxAux]
  | cons a as ih =>
    intro i k
    cases k with
    | zero => simp [mapIdxAux]
    | succ k =>
      have harith : i + 1 + k = i + (k + 1) := by omega
      simp [mapIdxAux, ih (i + 1) k, harith]

theorem optionMapIdx_isSome (f : Nat → α → Option β) (l : List α)
    (h : ∀ a ∈ l, ∀ j, (f j a).isSome) : ∀ i, (optionMapIdx f i l).isSome := by
  induction l with
  | nil => intro i; simp [optionMapIdx]
  | cons a as ih =>
    intro i
    have h1 := h a (by simp) i
    have h2 := ih (fun x hx j => h x (by simp [hx]) j) (i + 1)
    cases hfa : f i a with
    | none => rw [hfa] at h1; simp at h1
    | some b =>
      cases hrest : optionMapIdx f (i + 1) as with
      | none => rw [hrest] at h2; simp at h2
      | some bs => simp [optionMapIdx, hfa, hrest]

theorem optionMapIdx_getElem? (f : Nat → α → Option β) (l : List α) :
    ∀ (i : Nat) (l2 : List β), optionMapIdx f i l = some l2 →
      ∀ (k : Nat) (b : β), l2[k]? = some b →
        ∃ a, l[k]? = some a ∧ f (i + k) a = some b := by
  induction l with
  | nil =>
    intro i l2 h k b hk
    simp [optionMapIdx] at h
    subst h
    simp at hk
  | cons a as ih =>
    intro i l2 h k b hk
    cases hfa : f i a with
    | none => simp [optionMapIdx, hfa] at h
    | some b0 =>
      cases hrest : optionMapIdx f (i + 1) as with
      | none => simp [optionMapIdx, hfa, hrest] at h
      | some bs =>
        simp only [optionMapIdx, hfa, hrest] at h
        injection h with h
        subst h
        cases k with
        | zero =>
          simp at hk
          subst hk
          exact ⟨a, by simp, by simpa using hfa⟩
        | succ k =>
          simp at hk
          obtain ⟨a0, ha0, hfa0⟩ := ih (i + 1) bs hrest k b hk
          have harith : i + 1 + k = i + (k + 1) := by omega
          exact ⟨a0, by simpa using ha0, by rw [← harith]; exact hfa0⟩

theorem optionMapIdx_length (f : Nat → α → Option β) (l : List α) :
    ∀ (i : Nat) (l2 : List β), optionMapIdx f i l = some l2 → l2.length = l.length := by
  induction l with
  | nil => intro i l2 h; simp [optionMapIdx] at h; subst h; rfl
  | cons a as ih =>
    intro i l2 h
    cases hfa : f i a with
    | none => simp [optionMapIdx, hfa] at h
    | some b0 =>
      cases hrest : optionMapIdx f (i + 1) as with
      | none => simp [optionMapIdx, hfa, hrest] at h
      | some bs =>
        simp only [optionMapIdx, hfa, hrest] at h
        injection h with h
        subst h
        simp [ih (i + 1) bs hrest]

/-! ## Claims C2 and C6 (code bugs, evaluated at the failing inputs) -/

/-- Claim C2: the spec asserts `cleanOCRText` is idempotent
(`cleanOCRText (cleanOCRText x) = cleanOCRText x` for every `x`).  The code
violates this: on `"Page_1"` (a page-number header with underscore noise) the
first pass only turns the underscore into a space, producing `"Page 1"`, which
a second pass then strips entirely — so applying the cleaner twice differs
from applying it once, and the page-number boilerplate the function's own
comment promises to remove survives a single pass. -/
theorem claim_C2_clean_not_idempotent :
    cleanOCRText "Page_1" = "Page 1" ∧
    cleanOCRText (cleanOCRText "Page_1") = "" ∧
    cleanOCRText (cleanOCRText "Page_1") ≠ cleanOCRText "Page_1" := by
  refine ⟨by decide, by decide, ?_⟩
  decide

/-- Claim C6: the spec says generated questionIds begin with the document's
section; the code hard-codes the `"listening-"` prefix in both the stage-2
default and the stage-7 rewrite, so a Reading document still gets
`"listening-1-1-1"`. -/
theorem claim_C6_listening_hardcoded :
    (validateAndFixStructure exDocReading).sectionName = some "Reading" ∧
    (qAt (validateAndFixStructure exDocReading) 0 0).bind Question.questionId =
      some "listening-1-1-1" ∧
    (qAt ((enforceQuestionNumbering (validateAndFixStructure exDocReading)).getD emptyDoc)
        0 0).bind Question.questionId = some "listening-1-1-1" := by
  refine ⟨by decide, by decide, by decide⟩

/-! ## Counterexamples to claims C3, C4, C7, C9 as stated -/

/-- Claim C3 counterexample: on a text holding two juxtaposed JSON objects,
the claim's stage (d) ("first balanced span") would succeed with the first
object, but the source's greedy first-open-to-last-close extraction grabs
both objects and every stage fails, so `parseJsonSafely` raises. -/
theorem claim_C3_counterexample :
    firstBalancedSpan jsonCexInput = some "\x7b\"a\":1\x7d" ∧
    parseJsonSafelySpec none "JSON" jsonCexInput =
      Except.ok (Json.objOf [("a", Json.num "1")]) ∧
    parseJsonSafely none "JSON" jsonCexInput =
      Except.error
        ("Failed to parse JSON JSON after all repair attempts. Raw response: " ++
          jsonCexInput) := by
  refine ⟨by decide, by decide, by decide⟩

/-- Claim C4 counterexample: with the remote primary unhealthy, the source
spends the full retry budget on it — two health-check attempts separated by a
one-second delay — before falling back, contradicting the claim's "without
consuming any of the primary's retry budget". -/
theorem claim_C4_counterexample :
    (extractText cfgC4 envC4).2 =
      [OCREvent.healthCheck false, OCREvent.delayMs 1000, OCREvent.healthCheck false,
        OCREvent.tesseractExtract true] ∧
    ((extractText cfgC4 envC4).2.filter isHealthCheckEvent).length = 2 ∧
    ((extractText cfgC4 envC4).2.filter isDelayEvent).length = 1 := by
  refine ⟨by decide, by decide, by decide⟩

/-- Claim C7 counterexample: on a document missing its `parts` array, stages
3 (with images), 4, 5, 6, 7 and the final validator all throw a `TypeError`
(modelled `none`) instead of terminating with defaults or a report. -/
theorem claim_C7_counterexample :
    injectImageObjects docNoParts [⟨"u", "f", true⟩] = none ∧
    processBase64Images true 0 docNoParts = none ∧
    linkMatchingQuestions docNoParts = none ∧
    standardizeQuestionIds docNoParts = none ∧
    enforceQuestionNumbering docNoParts = none ∧
    validateRequiredFields docNoParts = none := by
  refine ⟨by decide, by decide, by decide, by decide, by decide, by decide⟩

/-- Claim C9 counterexample: a part whose first divider carries an *empty*
`draggableVariants` array (truthy in JS) blocks a later divider's non-empty
list: the part contains a divider with non-empty variants, yet the matching
question is left without them. -/
theorem claim_C9_counterexample :
    (qAt docC9 0 1).bind Question.type = some "divider" ∧
    (qAt docC9 0 1).bind Question.draggableVariants = some ["X"] ∧
    (qAt docC9 0 2).bind Question.type = some "matching" ∧
    linkMatchingQuestions docC9 = some docC9 ∧
    (qAt ((linkMatchingQuestions docC9).getD emptyDoc) 0 2).bind
      Question.draggableVariants = none := by
  refine ⟨by decide, by decide, by decide, by decide, by decide⟩

/-! ## Claim C1: numbering enforcement -/

/-- Claim C1: after stage 7, every question at part index `p` and position `i`
whose type is neither `divider` nor `image` carries
`number = 10 * p + i + 1`, regardless of the number the input carried. -/
theorem claim_C1_numbering_enforced (d d2 : DocumentJS)
    (h : enforceQuestionNumbering d = some d2) (p i : Nat) (q : Question)
    (hq : qAt d2 p i = some q)
    (hdiv : q.type ≠ some "divider") (himg : q.type ≠ some "image") :
    q.number = some ((p : Int) * 10 + (i : Int) + 1) := by
  cases hps : d.parts with
  | none => simp [enforceQuestionNumbering, hps] at h
  | some ps =>
    cases hm : optionMapIdx (enforcePart d.test) 0 ps with
    | none => simp [enforceQuestionNumbering, hps, hm] at h
    | some ps2 =>
      simp only [enforceQuestionNumbering, hps, hm] at h
      injection h with h
      subst h
      have hq2 : (ps2[p]?).bind (fun part => (part.questions.getD [])[i]?) = some q := hq
      rw [Option.bind_eq_some] at hq2
      obtain ⟨part2, hpart2, hqi⟩ := hq2
      obtain ⟨part0, hpart0, henf⟩ :=
        optionMapIdx_getElem? (enforcePart d.test) ps 0 ps2 hm p part2 hpart2
      rw [Nat.zero_add] at henf
      cases hqs : part0.questions with
      | none => simp [enforcePart, hqs] at henf
      | some qs =>
        simp only [enforcePart, hqs] at henf
        injection henf with henf
        subst henf
        have hqi2 : (mapIdxAux (enforceQ d.test part0.part p) 0 qs)[i]? = some q := hqi
        rw [mapIdxAux_getElem?] at hqi2
        rw [Option.map_eq_some'] at hqi2
        obtain ⟨q0, hq0, henq⟩ := hqi2
        rw [Nat.zero_add] at henq
        subst henq
        by_cases hc : (q0.type != some "divider" && q0.type != some "image") = true
        · simp [enforceQ, hc]
        · rw [Bool.not_eq_true] at hc
          have henfq : enforceQ d.test part0.part p i q0 = q0 := by
            simp [enforceQ, hc]
          rw [henfq] at hdiv himg ⊢
          cases hb1 : (q0.type != some "divider") with
          | false =>
            have : q0.type = some "divider" := by simpa [bne] using hb1
            exact absurd this hdiv
          | true =>
            have hb2 : (q0.type != some "image") = false := by
              cases hb2 : (q0.type != some "image") with
              | false => rfl
              | true => rw [hb1, hb2] at hc; simp at hc
            have : q0.type = some "image" := by simpa [bne] using hb2
            exact absurd this himg

theorem claim_C1_witness :
    (qAt exDocC1out 0 1).bind Question.number = some 2 := by
  have hq : qAt exDocC1out 0 1 = some ((qAt exDocC1out 0 1).getD {}) := by decide
  have h := claim_C1_numbering_enforced exDocC1 exDocC1out (by decide) 0 1
    ((qAt exDocC1out 0 1).getD {}) hq (by decide) (by decide)
  rw [hq]
  exact h.trans (by decide)

/-! ## Claim C8: structural defaulting -/

/-- Claim C8: after stage 2, the document's `test` and `section` are set
(defaulting to `"1"` and `"Listening"`), `parts` is an array, every part at
index `k` has `part` (defaulting to `k + 1`), `instructions`,
`questionsRange` (defaulting to the derived range string) and a questions
array, and every question at position `j` has `questionId`, `number`
(defaulting to `(part - 1) * 10 + j + 1`), `type`, `inputType` and
`answerConstraints` (from the fixed lookup tables), `isInteractive`
(defaulting to `true`) and `answer` (defaulting to the empty answer) all
defined. -/
theorem claim_C8_structural_defaulting (d : DocumentJS) (k j : Nat)
    (pOrig : PartJS) (qOrig : Question)
    (hk : (d.parts.getD [])[k]? = some pOrig)
    (hj : (pOrig.questions.getD [])[j]? = some qOrig) :
    (validateAndFixStructure d).test = some (jsOrStr d.test "1") ∧
    (validateAndFixStructure d).sectionName = some (jsOrStr d.sectionName "Listening") ∧
    ∃ p2 q2,
      pAt (validateAndFixStructure d) k = some p2 ∧
      qAt (validateAndFixStructure d) k j = some q2 ∧
      p2.part = some (jsOrInt pOrig.part ((k : Int) + 1)) ∧
      p2.instructions = some (jsOrStr pOrig.instructions
        ("Part " ++ toString (jsOrInt pOrig.part ((k : Int) + 1)) ++ " instructions")) ∧
      p2.questionsRange = some (jsOrStr pOrig.questionsRange
        (toString ((jsOrInt pOrig.part ((k : Int) + 1) - 1) * 10 + 1) ++ "-" ++
          toString (jsOrInt pOrig.part ((k : Int) + 1) * 10))) ∧
      p2.questions.isSome = true ∧
      q2.questionId = some (jsOrStr qOrig.questionId
        ("listening-" ++ jsOrStr d.test "1" ++ "-" ++
          toString (jsOrInt pOrig.part ((k : Int) + 1)) ++ "-" ++ toString (j + 1))) ∧
      q2.number = some (jsOrInt qOrig.number
        ((jsOrInt pOrig.part ((k : Int) + 1) - 1) * 10 + ((j : Int) + 1))) ∧
      q2.type = some (jsOrStr qOrig.type (autoDetectQuestionType qOrig)) ∧
      q2.inputType = some (jsOrStr qOrig.inputType
        (getInputTypeForQuestionType (jsOrStr qOrig.type (autoDetectQuestionType qOrig)))) ∧
      q2.answerConstraints = some (jsOrStr qOrig.answerConstraints
        (getDefaultAnswerConstraints (jsOrStr qOrig.type (autoDetectQuestionType qOrig)))) ∧
      q2.isInteractive = some (qOrig.isInteractive.getD true) ∧
      q2.answer = some (qOrig.answer.getD ⟨"", []⟩) := by
  have hp2 : pAt (validateAndFixStructure d) k =
      some (fixPart (jsOrStr d.test "1") k pOrig) := by
    show (mapIdxAux (fixPart (jsOrStr d.test "1")) 0 (d.parts.getD []))[k]? = _
    rw [mapIdxAux_getElem?, hk]
    simp
  have hq2 : qAt (validateAndFixStructure d) k j =
      some (fixQuestion (jsOrStr d.test "1") (jsOrInt pOrig.part ((k : Int) + 1)) j qOrig) := by
    show (pAt (validateAndFixStructure d) k).bind
      (fun part => (part.questions.getD [])[j]?) = _
    rw [hp2]
    show (mapIdxAux
        (fixQuestion (jsOrStr d.test "1") (jsOrInt pOrig.part ((k : Int) + 1))) 0
        (pOrig.questions.getD []))[j]? = _
    rw [mapIdxAux_getElem?, hj]
    simp
  exact ⟨rfl, rfl,
    fixPart (jsOrStr d.test "1") k pOrig,
    fixQuestion (jsOrStr d.test "1") (jsOrInt pOrig.part ((k : Int) + 1)) j qOrig,
    hp2, hq2, rfl, rfl, rfl, rfl, rfl, rfl, rfl, rfl, rfl, rfl, rfl⟩

theorem claim_C8_witness :
    (qAt (validateAndFixStructure exDocC8) 0 0).bind Question.number = some 1 ∧
    (qAt (validateAndFixStructure exDocC8) 0 0).bind Question.inputType = some "text" ∧
    (validateAndFixStructure exDocC8).test = some "1" ∧
    (validateAndFixStructure exDocC8).sectionName = some "Listening" := by
  obtain ⟨ht, hs, p2, q2, hp, hq, hf1, hf2, hf3, hf4, hg1, hg2, hg3, hg4, hg5, hg6, hg7⟩ :=
    claim_C8_structural_defaulting exDocC8 0 0 { questions := some [{}] } {}
      (by decide) (by decide)
  refine ⟨?_, ?_, ?_, ?_⟩
  · rw [hq]; exact hg2.trans (by decide)
  · rw [hq]; exact hg4.trans (by decide)
  · exact ht.trans (by decide)
  · exact hs.trans (by decide)

/-! ## Claim C9 (amended): matching/draggable linkage -/

/-- Claim C9 (amended): stage 5 resolves, per part, the draggable variants of
the *first* divider carrying a `draggableVariants` field; when that list is
non-empty every `matching` question receives it, and when it is empty (or no
such divider exists) the part is returned unchanged — in particular a
matching question's absent `draggableVariants` stays absent. -/
theorem claim_C9_linkage (d : DocumentJS) (ps : List PartJS) (k : Nat) (part : PartJS)
    (hp : d.parts = some ps) (hk : ps[k]? = some part) :
    ∃ ps2, linkMatchingQuestions d = some { d with parts := some ps2 } ∧
      ps2[k]? = some (linkPart part) ∧
      (partDV part = [] → linkPart part = part) ∧
      (∀ qs, part.questions = some qs → partDV part ≠ [] →
        (linkPart part).questions = some (qs.map fun q =>
          if q.type == some "matching" then
            { q with draggableVariants := some (partDV part) }
          else q)) := by
  refine ⟨ps.map linkPart, ?_, ?_, ?_, ?_⟩
  · simp [linkMatchingQuestions, hp]
  · rw [List.getElem?_map, hk]; rfl
  · intro hdv
    have hmap : (fun q : Question =>
        if q.type == some "matching" && !(partDV part).isEmpty then
          { q with draggableVariants := some (partDV part) }
        else q) = fun q => q := by
      funext q
      rw [hdv]
      simp
    rw [linkPart, hmap]
    simp
  · intro qs hqs hdv
    have hne : (partDV part).isEmpty = false := by
      cases hdvl : partDV part with
      | nil => exact absurd hdvl hdv
      | cons a l => rfl
    rw [linkPart, hqs]
    simp only [Option.map_some', hne, Bool.not_false, Bool.and_true]

theorem claim_C9_witness :
    (linkPart partC9w).questions =
      some [{ type := some "divider", draggableVariants := some ["X", "Y"] },
        { type := some "matching", draggableVariants := some ["X", "Y"] },
        { type := some "matching", draggableVariants := some ["X", "Y"] },
        { type := some "form-fill" }] := by
  obtain ⟨ps2, h1, h2, h3, h4⟩ :=
    claim_C9_linkage docC9w [partC9w] 0 partC9w rfl (by decide)
  have h5 := h4 ((partC9w.questions).getD []) (by decide) (by decide)
  exact h5.trans (by decide)

/-! ## Claim C7 (amended): stage totality -/

/-- Claim C7 (amended): stages 1 and 2 are total on any input, and on every
document whose `parts` field is present and whose parts each carry a
questions array (the shape stage 2 guarantees), stages 3 through 7 terminate
without raising and stage 8 returns `{valid, errors}` with `valid` true
exactly when `errors` is empty.  (On documents missing those arrays, stages
3-8 throw; see the counterexample.) -/
theorem claim_C7_total_after_defaulting (d : DocumentJS) (ps : List PartJS)
    (hp : d.parts = some ps) (hq : ∀ p ∈ ps, p.questions ≠ none) :
    (∀ imgs, injectImageObjects d imgs ≠ none) ∧
    (∀ fsOk now, processBase64Images fsOk now d ≠ none) ∧
    linkMatchingQuestions d ≠ none ∧
    standardizeQuestionIds d ≠ none ∧
    enforceQuestionNumbering d ≠ none ∧
    (∃ v errs, validateRequiredFields d = some (v, errs) ∧ (v = true ↔ errs = [])) := by
  have hqsome : ∀ p ∈ ps, ∃ qs, p.questions = some qs := by
    intro p hmem
    cases hcase : p.questions with
    | none => exact absurd hcase (hq p hmem)
    | some qs => exact ⟨qs, rfl⟩
  refine ⟨?_, ?_, ?_, ?_, ?_, ?_⟩
  · intro imgs
    by_cases himgs : imgs.isEmpty
    · simp [injectImageObjects, himgs]
    · simp [injectImageObjects, himgs, hp]
  · intro fsOk now
    have hsome := optionMapIdx_isSome
      (fun _ part =>
        match part.questions with
        | none => none
        | some qs => some { part with questions := some (qs.map (processQ fsOk now)) })
      ps
      (by
        intro a ha jdx
        obtain ⟨qs, hqs⟩ := hqsome a ha
        simp [hqs]) 0
    rw [Option.isSome_iff_exists] at hsome
    obtain ⟨ps2, hps2⟩ := hsome
    simp [processBase64Images, hp, hps2]
  · simp [linkMatchingQuestions, hp]
  · have hsome := optionMapIdx_isSome
      (fun _ part =>
        match part.questions with
        | none => none
        | some qs => some { part with questions := some (qs.map stdQ) })
      ps
      (by
        intro a ha jdx
        obtain ⟨qs, hqs⟩ := hqsome a ha
        simp [hqs]) 0
    rw [Option.isSome_iff_exists] at hsome
    obtain ⟨ps2, hps2⟩ := hsome
    simp [standardizeQuestionIds, hp, hps2]
  · have hsome := optionMapIdx_isSome (enforcePart d.test) ps
      (by
        intro a ha jdx
        obtain ⟨qs, hqs⟩ := hqsome a ha
        simp [enforcePart, hqs]) 0
    rw [Option.isSome_iff_exists] at hsome
    obtain ⟨ps2, hps2⟩ := hsome
    simp [enforceQuestionNumbering, hp, hps2]
  · have hsome := optionMapIdx_isSome partErrors ps
      (by
        intro a ha jdx
        obtain ⟨qs, hqs⟩ := hqsome a ha
        simp [partErrors, hqs]) 0
    rw [Option.isSome_iff_exists] at hsome
    obtain ⟨errLists, herr⟩ := hsome
    have hval : ∃ errs : List String, validateRequiredFields d = some (errs.isEmpty, errs) :=
      ⟨_, by simp only [validateRequiredFields, hp, herr]; rfl⟩
    obtain ⟨errs, herrs⟩ := hval
    refine ⟨errs.isEmpty, errs, herrs, ?_⟩
    cases errs with
    | nil => simp
    | cons e es => simp

theorem claim_C7_witness :
    standardizeQuestionIds docC7 ≠ none ∧ enforceQuestionNumbering docC7 ≠ none ∧
    linkMatchingQuestions docC7 ≠ none := by
  have h := claim_C7_total_after_defaulting docC7
    [{ part := some 1, instructions := some "i", questionsRange := some "1-10",
       questions := some [] }] rfl (by decide)
  exact ⟨h.2.2.2.1, h.2.2.2.2.1, h.2.2.1⟩

/-! ## Claim C3 (amended): the JSON repair chain -/

/-- Claim C3 (amended): on non-empty input, `parseJsonSafely` returns the
first success among, in order, (a) the direct parse, (b) cleanup + parse,
(c) the repair pass + parse, (d) extraction of the span from the first `{`
through the *last* `}` followed by cleanup + parse; it raises only when all
four stages fail, and the raised message embeds an excerpt of the offending
text of at most 200 characters. -/
theorem claim_C3_stage_chain (repair : Option (String → Option String))
    (context raw : String) (h : raw ≠ "") :
    (parseJsonSafely repair context raw =
      match stageDirect raw <|> stageCleaned raw <|> stageRepair repair raw <|>
          stageExtract raw with
      | some v => Except.ok v
      | none => Except.error (parseFailMsg context raw)) ∧
    ∀ m, parseJsonSafely repair context raw = Except.error m →
      ∃ pre post, m = pre ++ String.mk (raw.data.take 200) ++ post ∧
        (String.mk (raw.data.take 200)).length ≤ 200 := by
  have hbeq : (raw == "") = false := by simpa using h
  have hmain : parseJsonSafely repair context raw =
      match stageDirect raw <|> stageCleaned raw <|> stageRepair repair raw <|>
          stageExtract raw with
      | some v => Except.ok v
      | none => Except.error (parseFailMsg context raw) := by
    cases h1 : jsonParse raw with
    | some v =>
      simp [parseJsonSafely, hbeq, stageDirect, h1, Option.orElse]
    | none =>
      cases h2 : jsonParse (cleanJsonString raw) with
      | some v =>
        simp [parseJsonSafely, hbeq, stageDirect, stageCleaned, h1, h2, Option.orElse]
      | none =>
        cases repair with
        | none =>
          cases h4 : (extractJsonSpan raw).bind (fun sub => jsonParse (cleanJsonString sub)) with
          | some v =>
            simp [parseJsonSafely, hbeq, stageDirect, stageCleaned, stageRepair,
              stageExtract, h1, h2, h4, Option.orElse]
          | none =>
            simp [parseJsonSafely, hbeq, stageDirect, stageCleaned, stageRepair,
              stageExtract, h1, h2, h4, Option.orElse]
        | some rep =>
          cases h3 : (rep raw).bind jsonParse with
          | some v =>
            simp [parseJsonSafely, hbeq, stageDirect, stageCleaned, stageRepair,
              stageExtract, h1, h2, h3, Option.orElse]
          | none =>
            cases h4 : (extractJsonSpan raw).bind (fun sub => jsonParse (cleanJsonString sub)) with
            | some v =>
              simp [parseJsonSafely, hbeq, stageDirect, stageCleaned, stageRepair,
                stageExtract, h1, h2, h3, h4, Option.orElse]
            | none =>
              simp [parseJsonSafely, hbeq, stageDirect, stageCleaned, stageRepair,
                stageExtract, h1, h2, h3, h4, Option.orElse]
  refine ⟨hmain, ?_⟩
  intro m hm
  rw [hmain] at hm
  cases hchain : (stageDirect raw <|> stageCleaned raw <|> stageRepair repair raw <|>
      stageExtract raw) with
  | some v => rw [hchain] at hm; exact absurd hm (by simp)
  | none =>
    rw [hchain] at hm
    injection hm with hm
    refine ⟨"Failed to parse " ++ context ++ " JSON after all repair attempts. Raw response: ",
      if 200 < raw.length then "..." else "", ?_, ?_⟩
    · rw [← hm]
      simp only [parseFailMsg]
      by_cases hlen : 200 < raw.length
      · simp [hlen, String.append_assoc]
      · simp only [hlen, if_neg, ite_false]
        have htake : raw.data.take 200 = raw.data := by
          apply List.take_of_length_le
          have : raw.length = raw.data.length := rfl
          omega
        rw [htake]
        have hmk : String.mk raw.data = raw := rfl
        rw [hmk]
        simp
    · show (raw.data.take 200).length ≤ 200
      rw [List.length_take]
      omega

theorem claim_C3_witness :
    parseJsonSafely none "JSON" "xyz" =
      Except.error
        "Failed to parse JSON JSON after all repair attempts. Raw response: xyz" := by
  have h := (claim_C3_stage_chain none "JSON" "xyz" (by decide)).1
  exact h.trans (by decide)

/-! ## Claim C4 (amended): unhealthy primary and fallback -/

theorem primaryLoop_succ_eq (svc : String) (env : OCREnv) (rem : Nat)
    (st : OCRCounters) (le : Option String) :
    primaryLoop svc env (Nat.succ rem) st le =
      match attemptService svc "docTR service is unhealthy" env st with
      | (Except.ok r, st1, ev) => (some r, st1, ev, le)
      | (Except.error e, st1, ev) =>
        if rem == 0 then (none, st1, ev, some e)
        else
          match primaryLoop svc env rem st1 (some e) with
          | (res, st2, ev2, le2) => (res, st2, ev ++ OCREvent.delayMs 1000 :: ev2, le2) :=
  rfl

theorem attemptService_unhealthy (env : OCREnv) (st : OCRCounters) (msg : String)
    (hh : env.healthFn st.h = false) :
    attemptService "doctr" msg env st =
      (Except.error msg, ⟨st.h + 1, st.d, st.t⟩, [OCREvent.healthCheck false]) := by
  simp [attemptService, hh]

theorem primaryLoop_unhealthy (env : OCREnv) (hh : ∀ k, env.healthFn k = false) :
    ∀ (rem : Nat) (st : OCRCounters) (le : Option String),
      ∃ st2, primaryLoop "doctr" env (rem + 1) st le =
        (none, st2, unhealthyTrace rem, some "docTR service is unhealthy") := by
  intro rem
  induction rem with
  | zero =>
    intro st le
    refine ⟨⟨st.h + 1, st.d, st.t⟩, ?_⟩
    rw [primaryLoop_succ_eq, attemptService_unhealthy env st _ (hh st.h)]
    rfl
  | succ r ih =>
    intro st le
    obtain ⟨st2, hst2⟩ := ih ⟨st.h + 1, st.d, st.t⟩ (some "docTR service is unhealthy")
    refine ⟨st2, ?_⟩
    rw [primaryLoop_succ_eq, attemptService_unhealthy env st _ (hh st.h)]
    show (match primaryLoop "doctr" env (r + 1)
          (⟨st.h + 1, st.d, st.t⟩ : OCRCounters) (some "docTR service is unhealthy") with
      | (res, st2x, ev2, le2) =>
        (res, st2x, OCREvent.healthCheck false :: OCREvent.delayMs 1000 :: ev2, le2)) =
      (none, st2, unhealthyTrace (r + 1), some "docTR service is unhealthy")
    rw [hst2]
    rfl

theorem unhealthyTrace_doctr (r : Nat) : (unhealthyTrace r).filter isDoctrCall = [] := by
  induction r with
  | zero => simp [unhealthyTrace, isDoctrCall]
  | succ r ih => simp [unhealthyTrace, isDoctrCall, ih]

theorem unhealthyTrace_health (r : Nat) :
    ((unhealthyTrace r).filter isHealthCheckEvent).length = r + 1 := by
  induction r with
  | zero => simp [unhealthyTrace, isHealthCheckEvent]
  | succ r ih => simp [unhealthyTrace, isHealthCheckEvent, ih]

theorem unhealthyTrace_delay (r : Nat) :
    ((unhealthyTrace r).filter isDelayEvent).length = r := by
  induction r with
  | zero => simp [unhealthyTrace, isDelayEvent]
  | succ r ih => simp [unhealthyTrace, isDelayEvent, ih]

/-- Claim C4 (amended): with the remote primary configured and its health
check persistently unhealthy, `extractText` health-checks the primary once
per retry attempt (`maxRetries` health checks with the fixed one-second delay
between attempts — the retry budget *is* consumed), never invokes the remote
extraction call, and then succeeds on the local fallback with the result
tagged with the fallback's service name. -/
theorem claim_C4_unhealthy_fallback (n : Nat) (env : OCREnv) (t : String) (c : Int)
    (hn : 1 ≤ n) (hh : ∀ k, env.healthFn k = false)
    (ht : ∀ k, env.tessFn k = Except.ok (t, c)) :
    (extractText ⟨"doctr", "tesseract", n⟩ env).1 = Except.ok ⟨t, c, "Tesseract"⟩ ∧
    ((extractText ⟨"doctr", "tesseract", n⟩ env).2.filter isDoctrCall) = [] ∧
    ((extractText ⟨"doctr", "tesseract", n⟩ env).2.filter isHealthCheckEvent).length = n ∧
    ((extractText ⟨"doctr", "tesseract", n⟩ env).2.filter isDelayEvent).length = n - 1 := by
  cases n with
  | zero => exact absurd hn (by omega)
  | succ r =>
    obtain ⟨st2, hloop⟩ := primaryLoop_unhealthy env hh r ⟨0, 0, 0⟩ none
    have hext : extractText ⟨"doctr", "tesseract", r + 1⟩ env =
        (Except.ok ⟨t, c, "Tesseract"⟩,
          unhealthyTrace r ++ [OCREvent.tesseractExtract true]) := by
      simp [extractText, hloop, attemptService, ht st2.t]
    rw [hext]
    refine ⟨rfl, ?_, ?_, ?_⟩
    · simp [List.filter_append, unhealthyTrace_doctr, isDoctrCall]
    · simp [List.filter_append, unhealthyTrace_health, isHealthCheckEvent]
    · simp [List.filter_append, unhealthyTrace_delay, isDelayEvent]

theorem claim_C4_witness :
    (extractText ⟨"doctr", "tesseract", 2⟩ envC4).1 =
      Except.ok ⟨"scanned text", 90, "Tesseract"⟩ ∧
    ((extractText ⟨"doctr", "tesseract", 2⟩ envC4).2.filter isDoctrCall) = [] := by
  have h := claim_C4_unhealthy_fallback 2 envC4 "scanned text" 90 (by omega)
    (fun _ => rfl) (fun _ => rfl)
  exact ⟨h.1, h.2.1⟩

/-! ## Claims C5 and C10: the merge stage -/

theorem collectQuestions_append (l1 l2 : List PartJS) :
    collectQuestions (l1 ++ l2) = collectQuestions l1 ++ collectQuestions l2 := by
  simp [collectQuestions]

theorem collectQuestions_single (p : PartJS) :
    collectQuestions [p] = p.questions.getD [] := by
  simp [collectQuestions]

theorem filter_eq_nil_of_forall (l : List PartJS) (pred : PartJS → Bool)
    (h : ∀ a ∈ l, pred a = false) : l.filter pred = [] := by
  induction l with
  | nil => rfl
  | cons a as ih =>
    simp only [List.filter, h a (by simp)]
    exact ih fun x hx => h x (by simp [hx])

theorem filter_singleton_of_beq_false (p : PartJS) (key : Option Int)
    (h : (p.part == key) = false) :
    List.filter (fun q => q.part == key) [p] = [] := by
  simp [List.filter, h]

theorem filter_singleton_of_beq_true (p : PartJS) (key : Option Int)
    (h : (p.part == key) = true) :
    List.filter (fun q => q.part == key) [p] = [p] := by
  simp [List.filter, h]

theorem mergeInv_step (processed acc : List PartJS) (p : PartJS)
    (hinv : MergeInv processed acc) : MergeInv (processed ++ [p]) (mergeInto acc p) := by
  obtain ⟨hpw, hok, hmem⟩ := hinv
  by_cases hany : acc.any (fun e => e.part == p.part) = true
  · rw [mergeInto, if_pos hany]
    set g := fun e : PartJS =>
      if e.part == p.part then
        { e with questions := some (e.questions.getD [] ++ p.questions.getD []) }
      else e with hg
    have hgpart : ∀ e, (g e).part = e.part := by
      intro e
      rw [hg]
      dsimp only
      split <;> rfl
    refine ⟨?_, ?_, ?_⟩
    · rw [List.pairwise_map]
      exact hpw.imp fun {a b} hab => by rw [hgpart a, hgpart b]; exact hab
    · intro e2 he2
      rw [List.mem_map] at he2
      obtain ⟨e, he, rfl⟩ := he2
      obtain ⟨f, rest, hfil, hentry⟩ := hok e he
      have hfpart : e.part = f.part := by
        have h0 := congrArg PartJS.part hentry
        exact h0
      have hfq : e.questions =
          some (collectQuestions (processed.filter fun q => q.part == e.part)) := by
        have h0 := congrArg PartJS.questions hentry
        exact h0
      by_cases hep : (e.part == p.part) = true
      · have hepEq : e.part = p.part := by simpa using hep
        have hge : g e =
            { e with questions := some (e.questions.getD [] ++ p.questions.getD []) } := by
          rw [hg]
          dsimp only
          rw [if_pos hep]
        have hfilp : (List.filter (fun q => q.part == e.part) [p]) = [p] :=
          filter_singleton_of_beq_true p e.part (by simp [hepEq])
        refine ⟨f, rest ++ [p], ?_, ?_⟩
        · rw [hgpart e, List.filter_append, hfil, hfilp]
          rfl
        · rw [hgpart e, List.filter_append, hfil, hfilp, collectQuestions_append,
            collectQuestions_single]
          have hfq2 : e.questions = some (collectQuestions (f :: rest)) := by
            rw [hfq, hfil]
          have hfinstr : e.instructions = f.instructions := by
            have h0 := congrArg PartJS.instructions hentry
            exact h0
          have hfrange : e.questionsRange = f.questionsRange := by
            have h0 := congrArg PartJS.questionsRange hentry
            exact h0
          rw [hge, hfq2, hfpart, hfinstr, hfrange]
          simp
      · have hepNe : e.part ≠ p.part := by simpa using hep
        have hge : g e = e := by
          rw [hg]
          dsimp only
          rw [if_neg (by simpa using hepNe)]
        have hfilp : (List.filter (fun q => q.part == e.part) [p]) = [] :=
          filter_singleton_of_beq_false p e.part
            (beq_eq_false_iff_ne.mpr fun h => hepNe h.symm)
        refine ⟨f, rest, ?_, ?_⟩
        · rw [hge, List.filter_append, hfil, hfilp, List.append_nil]
        · rw [hge, List.filter_append, hfilp, List.append_nil]
          exact hentry
    · intro p0 hp0
      rcases List.mem_append.mp hp0 with hp0 | hp0
      · obtain ⟨e, he, hepart⟩ := hmem p0 hp0
        exact ⟨g e, List.mem_map_of_mem g he, by rw [hgpart e]; exact hepart⟩
      · have hp0p : p0 = p := by simpa using hp0
        obtain ⟨e, he, hbeq⟩ := List.any_eq_true.mp hany
        have hepEq : e.part = p.part := by simpa using hbeq
        refine ⟨g e, List.mem_map_of_mem g he, ?_⟩
        rw [hgpart e, hepEq, hp0p]
  · rw [mergeInto, if_neg hany]
    have hnone : ∀ e ∈ acc, e.part ≠ p.part := by
      intro e he hcontra
      exact hany (List.any_eq_true.mpr ⟨e, he, by simp [hcontra]⟩)
    refine ⟨?_, ?_, ?_⟩
    · rw [List.pairwise_append]
      refine ⟨hpw, by simp, ?_⟩
      intro a ha b hb
      have hb2 : b = { p with questions := some (p.questions.getD []) } := by simpa using hb
      rw [hb2]
      exact hnone a ha
    · intro e2 he2
      rcases List.mem_append.mp he2 with he2 | he2
      · obtain ⟨f, rest, hfil, hentry⟩ := hok e2 he2
        have hfilp : (List.filter (fun q => q.part == e2.part) [p]) = [] :=
          filter_singleton_of_beq_false p e2.part
            (beq_eq_false_iff_ne.mpr fun h => hnone e2 he2 h.symm)
        refine ⟨f, rest, ?_, ?_⟩
        · rw [List.filter_append, hfil, hfilp, List.append_nil]
        · rw [List.filter_append, hfilp, List.append_nil]
          exact hentry
      · have he2p : e2 = { p with questions := some (p.questions.getD []) } := by
          simpa using he2
        have hkey : e2.part = p.part := by rw [he2p]
        have hfilold : (processed.filter fun q => q.part == e2.part) = [] := by
          apply filter_eq_nil_of_forall
          intro a ha
          by_contra hcontra
          rw [Bool.not_eq_false] at hcontra
          have hapart : a.part = e2.part := by simpa using hcontra
          obtain ⟨e, he, hepart⟩ := hmem a ha
          exact hnone e he (hepart.trans (hapart.trans hkey))
        have hfilp : (List.filter (fun q => q.part == e2.part) [p]) = [p] :=
          filter_singleton_of_beq_true p e2.part (by simp [hkey])
        refine ⟨p, [], ?_, ?_⟩
        · rw [List.filter_append, hfilold, hfilp, List.nil_append]
        · rw [List.filter_append, hfilold, hfilp, List.nil_append,
            collectQuestions_single]
          exact he2p
    · intro p0 hp0
      rcases List.mem_append.mp hp0 with hp0 | hp0
      · obtain ⟨e, he, hepart⟩ := hmem p0 hp0
        exact ⟨e, List.mem_append_left _ he, hepart⟩
      · have hp0p : p0 = p := by simpa using hp0
        refine ⟨{ p with questions := some (p.questions.getD []) },
          List.mem_append_right _ (by simp), ?_⟩
        rw [hp0p]

theorem mergeInv_foldl :
    ∀ (ps processed acc : List PartJS), MergeInv processed acc →
      MergeInv (processed ++ ps) (ps.foldl mergeInto acc) := by
  intro ps
  induction ps with
  | nil => intro processed acc h; simpa using h
  | cons p ps ih =>
    intro processed acc h
    have h2 := mergeInv_step processed acc p h
    have h3 := ih (processed ++ [p]) (mergeInto acc p) h2
    simpa [List.append_assoc] using h3

theorem mergeInv_main (ps : List PartJS) : MergeInv ps (ps.foldl mergeInto []) := by
  have h0 : MergeInv [] [] := ⟨List.Pairwise.nil, by simp, by simp⟩
  simpa using mergeInv_foldl ps [] [] h0

theorem insertPart_perm (p : PartJS) (l : List PartJS) : (insertPart p l).Perm (p :: l) := by
  induction l with
  | nil => exact List.Perm.refl _
  | cons q qs ih =>
    by_cases h : partLe p q = true
    · simp only [insertPart]
      rw [if_pos h]
    · simp only [insertPart]
      rw [if_neg h]
      exact (ih.cons q).trans (List.Perm.swap p q qs)

theorem sortParts_perm (l : List PartJS) : (sortParts l).Perm l := by
  induction l with
  | nil => exact List.Perm.refl _
  | cons p ps ih =>
    exact (insertPart_perm p (sortParts ps)).trans (ih.cons p)

theorem pairwise_le_insertPart (p : PartJS) (l : List PartJS)
    (h : l.Pairwise fun a b => a.part.getD 0 ≤ b.part.getD 0) :
    (insertPart p l).Pairwise fun a b => a.part.getD 0 ≤ b.part.getD 0 := by
  induction l with
  | nil => simp [insertPart]
  | cons q qs ih =>
    rw [List.pairwise_cons] at h
    obtain ⟨hq, hqs⟩ := h
    by_cases hle : partLe p q = true
    · simp only [insertPart]
      rw [if_pos hle]
      rw [List.pairwise_cons]
      have hpq : p.part.getD 0 ≤ q.part.getD 0 := by simpa [partLe] using hle
      refine ⟨?_, ?_⟩
      · intro b hb
        rcases List.mem_cons.mp hb with rfl | hb
        · exact hpq
        · exact le_trans hpq (hq b hb)
      · rw [List.pairwise_cons]
        exact ⟨hq, hqs⟩
    · simp only [insertPart]
      rw [if_neg hle]
      rw [List.pairwise_cons]
      have hqp : q.part.getD 0 ≤ p.part.getD 0 := by
        have hlt : ¬(p.part.getD 0 ≤ q.part.getD 0) := by simpa [partLe] using hle
        omega
      refine ⟨?_, ih hqs⟩
      intro b hb
      rcases List.mem_cons.mp ((insertPart_perm p qs).mem_iff.mp hb) with hb2 | hb2
      · rw [hb2]
        exact hqp
      · exact hq b hb2

theorem sortParts_pairwise_le (l : List PartJS) :
    (sortParts l).Pairwise fun a b => a.part.getD 0 ≤ b.part.getD 0 := by
  induction l with
  | nil => simp [sortParts]
  | cons p ps ih => exact pairwise_le_insertPart p (sortParts ps) ih

/-- Claim C5: merging duplicate parts yields an output with pairwise-distinct
part numbers sorted ascending, where the part numbered `n` carries the
concatenation, in encounter order, of the question sequences of all input
parts numbered `n`, and every input part number survives.  (Stated over
documents whose parts carry numeric part numbers, the domain of the
`a.part - b.part` sort comparator.) -/
theorem claim_C5_merge_correct (ps : List PartJS) (hnum : ∀ p ∈ ps, p.part ≠ none) :
    ((mergeDuplicateParts ps).Pairwise fun a b =>
      a.part ≠ b.part ∧ a.part.getD 0 ≤ b.part.getD 0) ∧
    (∀ e ∈ mergeDuplicateParts ps, e.part ≠ none ∧
      e.questions = some (collectQuestions (ps.filter fun p => p.part == e.part))) ∧
    (∀ p ∈ ps, ∃ e ∈ mergeDuplicateParts ps, e.part = p.part) := by
  obtain ⟨hpw, hok, hmem⟩ := mergeInv_main ps
  have hperm := sortParts_perm (ps.foldl mergeInto [])
  refine ⟨?_, ?_, ?_⟩
  · have hne : (sortParts (ps.foldl mergeInto [])).Pairwise
        fun a b => a.part ≠ b.part :=
      (hperm.pairwise_iff fun {a b} hab => hab.symm).mpr hpw
    exact hne.and (sortParts_pairwise_le (ps.foldl mergeInto []))
  · intro e he
    have he2 : e ∈ ps.foldl mergeInto [] := hperm.mem_iff.mp he
    obtain ⟨f, rest, hfil, hentry⟩ := hok e he2
    have hfpart : e.part = f.part := by
      have h0 := congrArg PartJS.part hentry
      exact h0
    have hfq : e.questions =
        some (collectQuestions (ps.filter fun p => p.part == e.part)) := by
      have h0 := congrArg PartJS.questions hentry
      exact h0
    have hfmem : f ∈ ps := by
      have hf : f ∈ ps.filter fun p => p.part == e.part := by rw [hfil]; simp
      exact List.mem_of_mem_filter hf
    refine ⟨?_, hfq⟩
    rw [hfpart]
    exact hnum f hfmem
  · intro p hp
    obtain ⟨e, he, hepart⟩ := hmem p hp
    exact ⟨e, hperm.mem_iff.mpr he, hepart⟩

theorem claim_C5_witness :
    mergeDuplicateParts psC5 = [mergedC5] ∧
    (∀ p ∈ psC5, ∃ e ∈ mergeDuplicateParts psC5, e.part = p.part) :=
  ⟨by decide, (claim_C5_merge_correct psC5 (by decide)).2.2⟩

/-- Claim C10: a merged part's fields other than `questions` (instructions,
questionsRange, part number) are exactly those of the first-encountered input
part with its number; later duplicates contribute only their questions. -/
theorem claim_C10_first_part_metadata (ps : List PartJS) (e : PartJS)
    (he : e ∈ mergeDuplicateParts ps) :
    ∃ f rest, (ps.filter fun p => p.part == e.part) = f :: rest ∧
      e.part = f.part ∧ e.instructions = f.instructions ∧
      e.questionsRange = f.questionsRange ∧
      e.questions = some (collectQuestions (ps.filter fun p => p.part == e.part)) := by
  obtain ⟨hpw, hok, hmem⟩ := mergeInv_main ps
  have he2 := (sortParts_perm (ps.foldl mergeInto [])).mem_iff.mp he
  obtain ⟨f, rest, hfil, hentry⟩ := hok e he2
  have h1 : e.part = f.part := by
    have h0 := congrArg PartJS.part hentry
    exact h0
  have h2 : e.instructions = f.instructions := by
    have h0 := congrArg PartJS.instructions hentry
    exact h0
  have h3 : e.questionsRange = f.questionsRange := by
    have h0 := congrArg PartJS.questionsRange hentry
    exact h0
  have h4 : e.questions = some (collectQuestions (ps.filter fun p => p.part == e.part)) := by
    have h0 := congrArg PartJS.questions hentry
    exact h0
  exact ⟨f, rest, hfil, h1, h2, h3, h4⟩

theorem claim_C10_witness :
    mergedC5.instructions = some "first" ∧ mergedC5.questionsRange = some "11-20" := by
  obtain ⟨f, rest, hfil, hpart, hinstr, hrange, hq⟩ :=
    claim_C10_first_part_metadata psC5 mergedC5 (by decide)
  have hd : (psC5.filter fun p => p.part == mergedC5.part) = psC5 := by decide
  have hfr : f :: rest = psC5 := hfil.symm.trans hd
  have hfr2 : f :: rest =
      [{ part := some 2, instructions := some "first", questionsRange := some "11-20",
         questions := some [qA, qB] },
       { part := some 2, instructions := some "second", questionsRange := some "dup",
         questions := some [qC] }] := hfr
  injection hfr2 with hf hrest
  rw [hinstr, hrange, hf]
  exact ⟨rfl, rfl⟩
